import Mathlib

/-!
A shallow embedding of the `algo-core` crate (the authoritative game engine of
the repository) together with proofs about its advance/verify/apply cycle.

Conventions of the embedding:
* Rust `u8`/`u32`/`usize` values are modelled as `Nat`; none of the verified
  code paths can overflow (card numbers are at most 255, indices are small).
* A Rust `panic!` / `unwrap()` failure is modelled as `none` (for helper
  functions returning `Option`) or as a dedicated `panicked` constructor.
* `BTreeMap` is modelled as an association list kept in ascending key order,
  which is also the map's iteration order.
* The two `ThreadRng` shuffles in `Game::for_2_players` are taken as explicit
  function parameters; theorems assume nothing about them beyond what they
  need (typically that they preserve length).
-/

namespace AlgoCore

/-! ### Card model (`src/algo-core/src/card.rs`) -/

/-- `CardColor`: possible card colors. -/
inductive CardColor where
  | Black
  | White
deriving DecidableEq, Repr

/-- Discriminant order of the Rust `derive(Ord)`: `Black < White`. -/
def CardColor.toNat : CardColor → Nat
  | .Black => 0
  | .White => 1

/-- The derived `Ord` on `CardColor`. -/
def CardColor.cmp (a b : CardColor) : Ordering :=
  compare a.toNat b.toNat

/-- `CardPubInfo`: the public facet of a card. -/
structure CardPubInfo where
  color : CardColor
  revealed : Bool
deriving DecidableEq, Repr

/-- `CardPrivInfo`: the private facet of a card (its number). -/
structure CardPrivInfo where
  number : Nat
deriving DecidableEq, Repr

/-- `Card`: the authoritative card structure. -/
structure Card where
  pub_info : CardPubInfo
  priv_info : CardPrivInfo
deriving DecidableEq, Repr

/-- `Card::new`. -/
def Card.new (number : Nat) (color : CardColor) : Card :=
  { pub_info := { color := color, revealed := false },
    priv_info := { number := number } }

/-- `Card::cmp`: number first, then color (the `revealed` flag is ignored). -/
def Card.cmp (a b : Card) : Ordering :=
  match compare a.priv_info.number b.priv_info.number with
  | .eq => CardColor.cmp a.pub_info.color b.pub_info.color
  | v => v

/-- `CardView`: a per-viewer projection of a card. -/
structure CardView where
  pub_info : CardPubInfo
  priv_info : Option CardPrivInfo
deriving DecidableEq, Repr

/-- `Card::full_view`. -/
def Card.full_view (c : Card) : CardView :=
  { pub_info := c.pub_info, priv_info := some c.priv_info }

/-- `Card::public_view`: hides the number unless the card is revealed. -/
def Card.public_view (c : Card) : CardView :=
  if c.pub_info.revealed then
    { pub_info := c.pub_info, priv_info := some c.priv_info }
  else
    { pub_info := c.pub_info, priv_info := none }

/-- `CardView::public_view`. -/
def CardView.public_view (v : CardView) : CardView :=
  if v.pub_info.revealed then v else { v with priv_info := none }

/-- `create_cards`: cross product, numbers outer, colors inner. -/
def create_cards (numbers : List Nat) (colors : List CardColor) : List Card :=
  numbers.flatMap (fun n => colors.map (fun c => Card.new n c))

/-- `Talon`: draw pile, drawn by popping from the end of the `Vec`. -/
abbrev Talon := List Card

/-- `Talon::draw`: `Vec::pop`, taking the last element. -/
def Talon.draw (t : Talon) : Option (Card × Talon) :=
  match t.getLast? with
  | none => none
  | some c => some (c, t.dropLast)

/-- `Talon::view`: only the colors, in order. -/
def Talon.view (t : Talon) : List CardColor :=
  t.map (fun c => c.pub_info.color)

/-! ### Settings (`src/algo-core/src/settings.rs`) -/

/-- `GameSettings`. -/
structure GameSettings where
  card_colors : List CardColor
  max_card_number : Nat
  initial_draw_num : Nat
deriving DecidableEq, Repr

/-- `GameSettings::default()`. -/
def GameSettings.default : GameSettings :=
  { card_colors := [.Black, .White], max_card_number := 11, initial_draw_num := 4 }

/-- `GameSettings::build_cards`; `none` models the two `bail!` branches
(`COLOR_VARIANTS_MIN = 2`, `MAX_CARD_NUM_DEFAULT = 11`). -/
def GameSettings.build_cards (s : GameSettings) : Option (List Card) :=
  if s.card_colors.length < 2 then none
  else if s.max_card_number < 11 then none
  else some (create_cards (List.range (s.max_card_number + 1)) s.card_colors)

/-! ### Players (`src/algo-core/src/player.rs`) -/

/-- `PlayerId` (a `u32`). -/
abbrev PlayerId := Nat

/-- Insert an element at a given position of a list (`Vec::insert`). -/
def insertAt {α : Type} : Nat → α → List α → List α
  | 0, a, l => a :: l
  | _ + 1, a, [] => [a]
  | n + 1, a, x :: xs => x :: insertAt n a xs

/-- `Player`: a field of cards plus an optional attacker slot. -/
structure Player where
  field : List Card
  attacker : Option Card
deriving DecidableEq, Repr

/-- `Player::default()`. -/
def Player.default : Player := { field := [], attacker := none }

/-- `Player::insert_card_to_field`. `none` models the `panic!` on a duplicated
card. `Vec::binary_search` compares with `Card::cmp`; on the sorted,
duplicate-free fields the engine maintains it finds an element exactly when
one compares equal, and otherwise yields the number of elements ordered below
the probe as the insertion index. -/
def Player.insert_card_to_field (p : Player) (card : Card) : Option (Nat × Player) :=
  if p.field.any (fun x => Card.cmp x card = .eq) then none
  else
    let idx := p.field.countP (fun x => Card.cmp x card = .lt)
    some (idx, { p with field := insertAt idx card p.field })

/-- `Player::insert_attacker`; `none` models the `panic!` when an attacker
card is already present. -/
def Player.insert_attacker (p : Player) (card : Card) : Option Player :=
  match p.attacker with
  | some _ => none
  | none => some { p with attacker := some card }

/-- `TurnPlayer`: rotating queue of player ids, front = current turn player. -/
abbrev TurnPlayer := List PlayerId

/-- `TurnPlayer::advance`; `none` models the `unwrap` panic on an empty
queue. -/
def TurnPlayer.advance : TurnPlayer → Option TurnPlayer
  | [] => none
  | x :: xs => some (xs ++ [x])

/-! ### Events (`src/algo-core/src/event.rs`) -/

/-- `CardLocation`. -/
inductive CardLocation where
  | Field (idx : Nat)
  | Attacker
deriving DecidableEq, Repr

/-- `CardMovement`. -/
inductive CardMovement where
  | TalonToField (insert_at : Nat)
  | TalonToAttacker
  | AttackerToField (insert_at : Nat)
deriving DecidableEq, Repr

/-- `BoardChange`. -/
inductive BoardChange where
  | CardMoved (player : PlayerId) (movement : CardMovement) (card : CardView)
  | CardRevealed (player : PlayerId) (location : CardLocation) (card : Card)
deriving DecidableEq, Repr

/-- `GameEvent`: the closed vocabulary of game-progress events. -/
inductive GameEvent where
  | BoardChanged (change : BoardChange)
  | GameStarted (talon_view : List CardColor)
  | TurnOrderDetermined (order : List PlayerId)
  | CardDistributed (player : PlayerId)
  | TurnStarted (player : PlayerId)
  | TurnPlayerDrewCard
  | NoCardsLeft
  | AttackTargetSelectionRequired (target_player : PlayerId)
  | AttackTargetSelected (target_idx : Nat)
  | NumberGuessRequired
  | NumberGuessed (number : Nat)
  | AttackSucceeded
  | AttackFailed
  | AttackedPlayerLost
  | GameEnded
  | AttackOrStayDecisionRequired
  | AttackOrStayDecided (attack : Bool)
  | TurnEnded
  | RespOk
deriving DecidableEq, Repr

/-- `GameEventKind`. -/
inductive GameEventKind where
  | BoardChanged
  | GameStarted
  | TurnOrderDetermined
  | CardDistributed
  | TurnStarted
  | TurnPlayerDrewCard
  | NoCardsLeft
  | AttackTargetSelectionRequired
  | AttackTargetSelected
  | NumberGuessRequired
  | NumberGuessed
  | AttackSucceeded
  | AttackFailed
  | AttackedPlayerLost
  | GameEnded
  | AttackOrStayDecisionRequired
  | AttackOrStayDecided
  | TurnEnded
  | RespOk
deriving DecidableEq, Repr

/-- `GameEvent::kind`. -/
def GameEvent.kind : GameEvent → GameEventKind
  | .BoardChanged _ => .BoardChanged
  | .GameStarted _ => .GameStarted
  | .TurnOrderDetermined _ => .TurnOrderDetermined
  | .CardDistributed _ => .CardDistributed
  | .TurnStarted _ => .TurnStarted
  | .TurnPlayerDrewCard => .TurnPlayerDrewCard
  | .NoCardsLeft => .NoCardsLeft
  | .AttackTargetSelectionRequired _ => .AttackTargetSelectionRequired
  | .AttackTargetSelected _ => .AttackTargetSelected
  | .NumberGuessRequired => .NumberGuessRequired
  | .NumberGuessed _ => .NumberGuessed
  | .AttackSucceeded => .AttackSucceeded
  | .AttackFailed => .AttackFailed
  | .AttackedPlayerLost => .AttackedPlayerLost
  | .GameEnded => .GameEnded
  | .AttackOrStayDecisionRequired => .AttackOrStayDecisionRequired
  | .AttackOrStayDecided _ => .AttackOrStayDecided
  | .TurnEnded => .TurnEnded
  | .RespOk => .RespOk

/-- `BoardChange::view`: redacts the card of a `CardMoved` belonging to
another player; `CardRevealed` is passed through unchanged. -/
def BoardChange.view (b : BoardChange) (viewer : PlayerId) : BoardChange :=
  match b with
  | .CardMoved player movement card =>
    if player ≠ viewer then .CardMoved player movement card.public_view
    else .CardMoved player movement card
  | other => other

/-- `GameEvent::view`. -/
def GameEvent.view (e : GameEvent) (viewer : PlayerId) : GameEvent :=
  match e with
  | .BoardChanged change => .BoardChanged (change.view viewer)
  | other => other

/-- `EventQueue`: two-tier FIFO; the front of each list is the front of the
corresponding `VecDeque`. -/
structure EventQueue (T : Type) where
  main_queue : List T
  sub_queue : List T
deriving DecidableEq, Repr

/-- `EventQueue::pop_next`: the sub queue takes priority. -/
def EventQueue.pop_next {T : Type} (q : EventQueue T) : Option (T × EventQueue T) :=
  match q.sub_queue with
  | e :: rest => some (e, { q with sub_queue := rest })
  | [] =>
    match q.main_queue with
    | e :: rest => some (e, { q with main_queue := rest })
    | [] => none

/-- `EventQueue::push_main`. -/
def EventQueue.push_main {T : Type} (q : EventQueue T) (event : T) : EventQueue T :=
  { q with main_queue := q.main_queue ++ [event] }

/-- `EventQueue::push_sub`. -/
def EventQueue.push_sub {T : Type} (q : EventQueue T) (event : T) : EventQueue T :=
  { q with sub_queue := q.sub_queue ++ [event] }

/-! ### Errors (`src/algo-core/src/lib.rs`) -/

/-- `NextEventError`. -/
inductive NextEventError where
  | EventProcessing
  | NoMoreEvent
deriving DecidableEq, Repr

/-- `ResponseError`. -/
inductive ResponseErrorKind where
  | InvalidGameEventKind (expected : GameEventKind)
  | InvalidAttackTarget
  | NumberOutOfRange
deriving DecidableEq, Repr

/-- `ResponseError`. -/
structure ResponseError where
  kind : ResponseErrorKind
  player : PlayerId
  response : GameEvent
deriving DecidableEq, Repr

/-- `ProcessEventError`. -/
inductive ProcessEventError where
  | NotReady
  | Failed
  | ResponseError (e : AlgoCore.ResponseError)
deriving DecidableEq, Repr

/-! ### Board (`src/algo-core/src/lib.rs`, `struct Board`) -/

/-- Lookup in an association list (`BTreeMap::get`). -/
def alistGet {κ α : Type} [DecidableEq κ] (k : κ) : List (κ × α) → Option α
  | [] => none
  | (k2, v) :: rest => if k2 = k then some v else alistGet k rest

/-- Replace the value of an existing key in an association list, preserving
order (writing through `BTreeMap::get_mut`). Missing keys are left alone;
every use is guarded by a preceding `alistGet`. -/
def alistSet {κ α : Type} [DecidableEq κ] (k : κ) (v : α) : List (κ × α) → List (κ × α)
  | [] => []
  | (k2, v2) :: rest => if k2 = k then (k2, v) :: rest else (k2, v2) :: alistSet k v rest

/-- `Board`. -/
structure Board where
  talon : Talon
  players : List (PlayerId × Player)
deriving DecidableEq, Repr

/-- `Board::draw_direct` (used for the initial deal); `none` models the
panics (`expect` on an empty talon, unknown player, duplicated card). -/
def Board.draw_direct (b : Board) (player : PlayerId) : Option (BoardChange × Board) :=
  match Talon.draw b.talon with
  | none => none
  | some (card, talon2) =>
    match alistGet player b.players with
    | none => none
    | some p =>
      match p.insert_card_to_field card with
      | none => none
      | some (idx, p2) =>
        some (.CardMoved player (.TalonToField idx) card.full_view,
              { talon := talon2, players := alistSet player p2 b.players })

/-- `Board::draw` (turn-player draw). The outer `Option` models panics; the
inner `Option` is the source's `Option<BoardChange>`: `none` when the talon
is empty, in which case the board is unchanged. -/
def Board.draw (b : Board) (player : PlayerId) :
    Option (Option (BoardChange × Board)) :=
  match Talon.draw b.talon with
  | none => some none
  | some (card, talon2) =>
    match alistGet player b.players with
    | none => none
    | some p =>
      match p.insert_attacker card with
      | none => none
      | some p2 =>
        some (some (.CardMoved player .TalonToAttacker card.full_view,
                    { talon := talon2, players := alistSet player p2 b.players }))

/-- `Board::verify_attack_target`: the index must reference an unrevealed
field card of the target player. `none` models the unknown-player panic. -/
def Board.verify_attack_target (b : Board) (target_player : PlayerId)
    (target_idx : Nat) : Option Bool :=
  match alistGet target_player b.players with
  | none => none
  | some p =>
    match p.field.get? target_idx with
    | none => some false
    | some card => some (!card.pub_info.revealed)

/-- `Board::resolve_attack`: `true` when the guess is correct. `none` models
the panics (unknown player, out-of-range index). -/
def Board.resolve_attack (b : Board) (attacked : PlayerId) (target_idx : Nat)
    (guess : Nat) : Option Bool :=
  match alistGet attacked b.players with
  | none => none
  | some p =>
    match p.field.get? target_idx with
    | none => none
    | some card => some (guess == card.priv_info.number)

/-- `Board::resolve_succeeded_attack`: flips the targeted card in place and
reports the reveal. `none` models the panics. -/
def Board.resolve_succeeded_attack (b : Board) (attacked : PlayerId)
    (target_idx : Nat) : Option (BoardChange × Board) :=
  match alistGet attacked b.players with
  | none => none
  | some p =>
    match p.field.get? target_idx with
    | none => none
    | some card =>
      let card2 := { card with pub_info := { card.pub_info with revealed := true } }
      let p2 := { p with field := p.field.set target_idx card2 }
      some (.CardRevealed attacked (.Field target_idx) card2,
            { b with players := alistSet attacked p2 b.players })

/-- `Board::has_player_lost_game`: every field card revealed. -/
def Board.has_player_lost_game (b : Board) (player : PlayerId) : Option Bool :=
  match alistGet player b.players with
  | none => none
  | some p => some (p.field.all (fun c => c.pub_info.revealed))

/-- `Board::resolve_failed_attack`: reveal the attacker card and fold it into
the attacker's own field, reporting the two board changes in order. -/
def Board.resolve_failed_attack (b : Board) (attacker : PlayerId) :
    Option (BoardChange × BoardChange × Board) :=
  match alistGet attacker b.players with
  | none => none
  | some p =>
    match p.attacker with
    | none => none
    | some card =>
      let card2 := { card with pub_info := { card.pub_info with revealed := true } }
      let p1 : Player := { p with attacker := none }
      match p1.insert_card_to_field card2 with
      | none => none
      | some (idx, p2) =>
        some (.CardRevealed attacker .Attacker card2,
              .CardMoved attacker (.AttackerToField idx) card2.full_view,
              { b with players := alistSet attacker p2 b.players })

/-- `Board::resolve_stay`: fold the attacker card into the field unflipped. -/
def Board.resolve_stay (b : Board) (attacker : PlayerId) :
    Option (BoardChange × Board) :=
  match alistGet attacker b.players with
  | none => none
  | some p =>
    match p.attacker with
    | none => none
    | some card =>
      let p1 : Player := { p with attacker := none }
      match p1.insert_card_to_field card with
      | none => none
      | some (idx, p2) =>
        some (.CardMoved attacker (.AttackerToField idx) card.full_view,
              { b with players := alistSet attacker p2 b.players })

/-! ### Game (`src/algo-core/src/lib.rs`, `struct Game`) -/

/-- `AttackContext`. -/
structure AttackContext where
  target_player : Option PlayerId
  target_card_idx : Option Nat
  guess : Option Nat
deriving DecidableEq, Repr

/-- `AttackContext::default()` (also `cleanup`). -/
def AttackContext.default : AttackContext :=
  { target_player := none, target_card_idx := none, guess := none }

/-- `Game`. -/
structure Game where
  settings : GameSettings
  board : Board
  turn_player : TurnPlayer
  attack : AttackContext
  staged_event : Option GameEvent
  event_queue : EventQueue GameEvent
  event_responses : List (PlayerId × Option GameEvent)
  history : List GameEvent
deriving DecidableEq, Repr

/-- Result of one `process_event`-style step. `panicked` models a Rust
panic (the call never returns); `errored`/`ok` carry the engine state the
caller observes afterwards, since `process_event` takes `&mut self`. -/
inductive StepRes where
  | panicked
  | errored (e : ProcessEventError) (g : Game)
  | ok (g : Game)
deriving DecidableEq, Repr

/-- `Game::is_event_staged`. -/
def Game.is_event_staged (g : Game) : Bool :=
  g.staged_event.isSome

/-- `Game::has_all_players_responded`. -/
def Game.has_all_players_responded (g : Game) : Bool :=
  g.event_responses.all (fun pr => pr.2.isSome)

/-- `Game::turn_player()` (the accessor): front of the turn queue; `none`
models the `unwrap` panic. -/
def Game.turn_player_id (g : Game) : Option PlayerId :=
  g.turn_player.head?

/-- `Game::take_turn_player_resp`: removes and returns the turn player's
stored response. -/
def Game.take_turn_player_resp (g : Game) : Option (GameEvent × Game) :=
  match g.turn_player_id with
  | none => none
  | some tp =>
    match alistGet tp g.event_responses with
    | none => none
    | some none => none
    | some (some resp) =>
      some (resp, { g with event_responses := alistSet tp none g.event_responses })

/-- `Game::resp_err`. -/
def Game.resp_err (g : Game) (kind : ResponseErrorKind) (resp : GameEvent) :
    Option ProcessEventError :=
  match g.turn_player_id with
  | none => none
  | some tp => some (.ResponseError { kind := kind, player := tp, response := resp })

/-- `Game::start_game`: enqueue turn order, the initial deal, and the first
turn. -/
def Game.start_game (g : Game) : Option Game :=
  let turn_order := g.turn_player
  let q1 := g.event_queue.push_main (.TurnOrderDetermined turn_order)
  let q2 := (List.range g.settings.initial_draw_num).foldl
      (fun q _ => turn_order.foldl (fun q3 pid => q3.push_main (.CardDistributed pid)) q) q1
  match g.turn_player_id with
  | none => none
  | some tp => some { g with event_queue := q2.push_main (.TurnStarted tp) }

/-- `Game::start_turn`: the attack target is the player after the turn
player in the rotation. -/
def Game.start_turn (g : Game) : Option Game :=
  match TurnPlayer.advance g.turn_player with
  | none => none
  | some rotated =>
    match rotated.head? with
    | none => none
    | some attack_target =>
      some { g with attack := { g.attack with target_player := some attack_target } }

/-- `Game::resolve_turn_player_draw`. -/
def Game.resolve_turn_player_draw (g : Game) : Option Game :=
  match g.turn_player_id with
  | none => none
  | some tp =>
    match g.board.draw tp with
    | none => none
    | some (some (change, board2)) =>
      match g.attack.target_player with
      | none => none
      | some target =>
        some { g with
                board := board2,
                event_queue := ((g.event_queue.push_sub (.BoardChanged change)).push_main
                   (.AttackTargetSelectionRequired target)) }
    | some none =>
      some { g with event_queue := g.event_queue.push_main .NoCardsLeft }

/-- `Game::resolve_resp_attack_target_selection`. -/
def Game.resolve_resp_attack_target_selection (g : Game) : StepRes :=
  match g.take_turn_player_resp with
  | none => .panicked
  | some (resp, g1) =>
    match resp with
    | .AttackTargetSelected target_idx =>
      match g1.attack.target_player with
      | none => .panicked
      | some target =>
        match g1.board.verify_attack_target target target_idx with
        | none => .panicked
        | some true =>
          .ok { g1 with
                 attack := { g1.attack with target_card_idx := some target_idx },
                 event_queue := g1.event_queue.push_main resp }
        | some false =>
          match g1.resp_err .InvalidAttackTarget resp with
          | none => .panicked
          | some e => .errored e g1
    | other =>
      match g1.resp_err (.InvalidGameEventKind .AttackTargetSelected) other with
      | none => .panicked
      | some e => .errored e g1

/-- `Game::resolve_resp_number_guess`. NOTE: the source checks the guess
against the literal range `0..=11`, not against
`settings.max_card_number`. -/
def Game.resolve_resp_number_guess (g : Game) : StepRes :=
  match g.take_turn_player_resp with
  | none => .panicked
  | some (resp, g1) =>
    match resp with
    | .NumberGuessed num =>
      if num ≤ 11 then
        .ok { g1 with
               attack := { g1.attack with guess := some num },
               event_queue := g1.event_queue.push_main resp }
      else
        match g1.resp_err .NumberOutOfRange resp with
        | none => .panicked
        | some e => .errored e g1
    | other =>
      match g1.resp_err (.InvalidGameEventKind .NumberGuessed) other with
      | none => .panicked
      | some e => .errored e g1

/-- `Game::resolve_attack`: compares the stored guess with the targeted
card's number and enqueues the outcome. -/
def Game.resolve_attack (g : Game) : Option Game :=
  match g.attack.target_player, g.attack.target_card_idx, g.attack.guess with
  | some attacked, some target_idx, some guess =>
    (match g.board.resolve_attack attacked target_idx guess with
     | none => none
     | some res =>
       some { g with
               event_queue := g.event_queue.push_main
                 (if res then .AttackSucceeded else .AttackFailed) })
  | _, _, _ => none

/-- `Game::resolve_succeeded_attack`. -/
def Game.resolve_succeeded_attack (g : Game) : Option Game :=
  match g.attack.target_player, g.attack.target_card_idx with
  | some attacked, some target_idx =>
    (match g.board.resolve_succeeded_attack attacked target_idx with
     | none => none
     | some (change, board2) =>
       let q1 := g.event_queue.push_sub (.BoardChanged change)
       match board2.has_player_lost_game attacked with
       | none => none
       | some res =>
         let q2 := q1.push_main
           (if res then .AttackedPlayerLost else .AttackOrStayDecisionRequired)
         some { g with
                 board := board2,
                 event_queue := q2,
                 attack := { g.attack with target_card_idx := none, guess := none } })
  | _, _ => none

/-- `Game::resolve_failed_attack`. -/
def Game.resolve_failed_attack (g : Game) : Option Game :=
  match g.turn_player_id with
  | none => none
  | some attacker =>
    match g.board.resolve_failed_attack attacker with
    | none => none
    | some (c1, c2, board2) =>
      some { g with
              board := board2,
              event_queue := (((g.event_queue.push_sub (.BoardChanged c1)).push_sub
                 (.BoardChanged c2)).push_main .TurnEnded) }

/-- `Game::resolve_resp_attack_or_stay_decision`. -/
def Game.resolve_resp_attack_or_stay_decision (g : Game) : StepRes :=
  match g.take_turn_player_resp with
  | none => .panicked
  | some (resp, g1) =>
    match resp with
    | .AttackOrStayDecided _ =>
      .ok { g1 with event_queue := g1.event_queue.push_main resp }
    | other =>
      match g1.resp_err (.InvalidGameEventKind .AttackOrStayDecided) other with
      | none => .panicked
      | some e => .errored e g1

/-- `Game::resolve_stay`. -/
def Game.resolve_stay (g : Game) : Option Game :=
  match g.turn_player_id with
  | none => none
  | some tp =>
    match g.board.resolve_stay tp with
    | none => none
    | some (change, board2) =>
      some { g with
              board := board2,
              event_queue := ((g.event_queue.push_sub (.BoardChanged change)).push_main
                 .TurnEnded) }

/-- `Game::end_turn`: rotate the turn order and clear the attack context. -/
def Game.end_turn (g : Game) : Option Game :=
  match TurnPlayer.advance g.turn_player with
  | none => none
  | some rotated =>
    some { g with turn_player := rotated, attack := AttackContext.default }

/-- Result of the final acknowledgement scan of `process_event`: every
response still stored must be `RespOk`. `panicked` models the
`unreachable!()` hit when a slot is empty; `errored` returns the offending
response together with the partially cleared storage (entries scanned so
far, including the offending one, are cleared). -/
inductive RespScan where
  | panicked
  | errored (e : ResponseError) (m : List (PlayerId × Option GameEvent))
  | ok (m : List (PlayerId × Option GameEvent))
deriving DecidableEq, Repr

/-- The `for (pid, resp) in self.event_responses.iter_mut()` loop at the end
of `Game::process_event`. -/
def scan_resp_ok : List (PlayerId × Option GameEvent) → RespScan
  | [] => .ok []
  | (pid, r) :: rest =>
    match r with
    | none => .panicked
    | some .RespOk =>
      match scan_resp_ok rest with
      | .panicked => .panicked
      | .errored e m => .errored e ((pid, none) :: m)
      | .ok m => .ok ((pid, none) :: m)
    | some unexpected =>
      .errored { kind := .InvalidGameEventKind .RespOk,
                 player := pid, response := unexpected }
        ((pid, none) :: rest)

/-- The `match event { .. }` dispatch inside `Game::process_event`, applied
to the state after the staged event has been taken out. -/
def Game.interpret_event (g : Game) (event : GameEvent) : StepRes :=
  match event with
  | .BoardChanged _ => .ok g
  | .GameStarted _ =>
    match g.start_game with
    | none => .panicked
    | some g1 => .ok g1
  | .TurnOrderDetermined _ => .ok g
  | .CardDistributed pid =>
    match g.board.draw_direct pid with
    | none => .panicked
    | some (change, b2) =>
      .ok { g with
             board := b2,
             event_queue := g.event_queue.push_sub (.BoardChanged change) }
  | .TurnStarted _ =>
    match g.start_turn with
    | none => .panicked
    | some g1 => .ok { g1 with event_queue := g1.event_queue.push_main .TurnPlayerDrewCard }
  | .TurnPlayerDrewCard =>
    match g.resolve_turn_player_draw with
    | none => .panicked
    | some g1 => .ok g1
  | .NoCardsLeft => .ok { g with event_queue := g.event_queue.push_main .GameEnded }
  | .AttackTargetSelectionRequired _ => g.resolve_resp_attack_target_selection
  | .AttackTargetSelected _ =>
    .ok { g with event_queue := g.event_queue.push_main .NumberGuessRequired }
  | .NumberGuessRequired => g.resolve_resp_number_guess
  | .NumberGuessed _ =>
    match g.resolve_attack with
    | none => .panicked
    | some g1 => .ok g1
  | .AttackSucceeded =>
    match g.resolve_succeeded_attack with
    | none => .panicked
    | some g1 => .ok g1
  | .AttackFailed =>
    match g.resolve_failed_attack with
    | none => .panicked
    | some g1 => .ok g1
  | .AttackedPlayerLost =>
    .ok { g with event_queue := g.event_queue.push_main .GameEnded }
  | .GameEnded => .ok g
  | .AttackOrStayDecisionRequired => g.resolve_resp_attack_or_stay_decision
  | .AttackOrStayDecided attack =>
    if attack then
      match g.attack.target_player with
      | none => .panicked
      | some target =>
        .ok { g with
               event_queue := g.event_queue.push_main
                 (.AttackTargetSelectionRequired target) }
    else
      match g.resolve_stay with
      | none => .panicked
      | some g1 => .ok g1
  | .TurnEnded =>
    match g.end_turn with
    | none => .panicked
    | some g1 =>
      match g1.turn_player_id with
      | none => .panicked
      | some tp =>
        .ok { g1 with event_queue := g1.event_queue.push_main (.TurnStarted tp) }
  | .RespOk => .panicked

/-- `Game::process_event`: the verify/apply half of a step. The staged event
is taken out of its slot before being interpreted; afterwards every response
still stored must be `RespOk`, the responses are cleared and the event is
appended to the history. -/
def Game.process_event (g : Game) : StepRes :=
  if !g.has_all_players_responded then .errored .NotReady g
  else
    match g.staged_event with
    | none => .panicked
    | some event =>
      let g0 := { g with staged_event := none }
      match g0.interpret_event event with
      | .panicked => .panicked
      | .errored e g1 => .errored e g1
      | .ok g1 =>
        match scan_resp_ok g1.event_responses with
        | .panicked => .panicked
        | .errored e m => .errored (.ResponseError e) { g1 with event_responses := m }
        | .ok m =>
          .ok { g1 with
                 event_responses := m,
                 history := g1.history ++ [event] }

/-- `Game::next_event`: stages the next queued event (sub queue first) and
returns it redacted per player; the returned `Game` is the state after the
call (unchanged on error). -/
def Game.next_event (g : Game) :
    Except NextEventError (List (PlayerId × GameEvent)) × Game :=
  if g.is_event_staged then (.error .EventProcessing, g)
  else
    match g.event_queue.pop_next with
    | none => (.error .NoMoreEvent, g)
    | some (event, q2) =>
      (.ok (g.event_responses.map (fun pr => (pr.1, event.view pr.1))),
       { g with staged_event := some event, event_queue := q2 })

/-- `Game::store_player_response`; `none` models the unknown-`PlayerId`
error. Returns whether every player has now responded. -/
def Game.store_player_response (g : Game) (player : PlayerId)
    (response : GameEvent) : Option (Bool × Game) :=
  match alistGet player g.event_responses with
  | none => none
  | some _ =>
    let g1 := { g with event_responses := alistSet player (some response) g.event_responses }
    some (g1.has_all_players_responded, g1)

/-- `Game::for_2_players`. The two shuffles performed with `ThreadRng` are
passed in as explicit functions; `none` models the three `bail!` branches
(duplicated id, invalid settings, not enough cards). -/
def Game.for_2_players (shuffle_talon : List Card → List Card)
    (shuffle_order : List PlayerId → List PlayerId)
    (player_ids : PlayerId × PlayerId) (settings : GameSettings) : Option Game :=
  if player_ids.1 = player_ids.2 then none
  else do
    let cards ← settings.build_cards
    if cards.length ≤ settings.initial_draw_num * 2 then none
    else
      let talon := shuffle_talon cards
      let players :=
        if player_ids.1 < player_ids.2 then
          [(player_ids.1, Player.default), (player_ids.2, Player.default)]
        else
          [(player_ids.2, Player.default), (player_ids.1, Player.default)]
      let turn_order := shuffle_order [player_ids.1, player_ids.2]
      some { settings := settings,
             board := { talon := talon, players := players },
             turn_player := turn_order,
             attack := AttackContext.default,
             staged_event := none,
             event_queue := { main_queue := [.GameStarted (Talon.view talon)],
                              sub_queue := [] },
             event_responses := players.map (fun pr => (pr.1, (none : Option GameEvent))),
             history := [] }

/-- One full engine step driven with all-`RespOk` acknowledgements: stage the
next event, store `RespOk` for every player, then process. `none` when any
part fails; this is the driver used for concrete scenario runs. -/
def Game.step_all_ok (g : Game) : Option Game :=
  match g.next_event with
  | (.error _, _) => none
  | (.ok _, g1) =>
    let stored := (g1.event_responses.map Prod.fst).foldlM
      (fun acc pid => (acc.store_player_response pid .RespOk).map Prod.snd) g1
    match stored with
    | none => none
    | some g2 =>
      match g2.process_event with
      | .ok g3 => some g3
      | _ => none

/-- Iterate `step_all_ok`. -/
def Game.run_all_ok : Nat → Game → Option Game
  | 0, g => some g
  | n + 1, g => (g.step_all_ok).bind (Game.run_all_ok n)

/-- The error component of a step result, if any. -/
def StepRes.error? : StepRes → Option ProcessEventError
  | .errored e _ => some e
  | _ => none

/-- The engine state observable after a step result (`none` after a panic). -/
def StepRes.after : StepRes → Option Game
  | .panicked => none
  | .errored _ g => some g
  | .ok g => some g

/-! ### Theorems -/

/-- C9: `pop_next` always delivers the front (oldest) entry of the sub queue
when the sub queue is non-empty and otherwise the front (oldest) entry of the
main queue, while `push_main`/`push_sub` append at the back of their tier;
hence entries of a tier are delivered in push order (FIFO) and every
sub-queue entry is delivered before every main-queue entry still queued. -/
theorem eventQueue_sub_tier_priority :
    ∀ (T : Type) (q : EventQueue T) (e : T),
      (q.pop_next = match q.sub_queue with
        | x :: rest => some (x, { q with sub_queue := rest })
        | [] =>
          match q.main_queue with
          | x :: rest => some (x, { q with main_queue := rest })
          | [] => none) ∧
      q.push_main e = { q with main_queue := q.main_queue ++ [e] } ∧
      q.push_sub e = { q with sub_queue := q.sub_queue ++ [e] } := by
  intro T q e
  exact ⟨rfl, rfl, rfl⟩

/-- C4: per-viewer redaction of a card. `Card::public_view` keeps the private
info (the number) exactly when the card is revealed, and `GameEvent::view`
applied to a `BoardChanged`/`CardMoved` event carrying the full view of a
card owned by `P` keeps the private info exactly when the viewer is `P` or
the card is revealed, and redacts it otherwise. -/
theorem card_redaction_per_viewer :
    ∀ (c : Card) (P v : PlayerId) (m : CardMovement),
      Card.public_view c =
        (if c.pub_info.revealed then c.full_view
         else { pub_info := c.pub_info, priv_info := none }) ∧
      GameEvent.view (.BoardChanged (.CardMoved P m c.full_view)) v =
        .BoardChanged (.CardMoved P m
          (if v = P ∨ c.pub_info.revealed then c.full_view
           else { pub_info := c.pub_info, priv_info := none })) := by
  intro c P v m
  constructor
  · by_cases hr : c.pub_info.revealed <;>
      simp [Card.public_view, Card.full_view, hr]
  · by_cases hv : v = P
    · subst hv
      simp [GameEvent.view, BoardChange.view]
    · by_cases hr : c.pub_info.revealed <;>
        simp [GameEvent.view, BoardChange.view, CardView.public_view,
          Card.full_view, hv, hr, Ne.symm hv]

/-- C3: staging exclusivity. While an event is staged, `next_event` fails
with `EventProcessing` and returns the state unchanged; while at least one
player's response is absent, `process_event` fails with `NotReady` and
returns the state unchanged. -/
theorem staging_exclusivity :
    ∀ (g : Game),
      (∀ e, g.staged_event = some e →
        g.next_event = (.error .EventProcessing, g)) ∧
      (∀ p, (p, (none : Option GameEvent)) ∈ g.event_responses →
        g.process_event = .errored .NotReady g) := by
  intro g
  constructor
  · intro e he
    simp [Game.next_event, Game.is_event_staged, he]
  · intro p hp
    have hall : g.has_all_players_responded = false := by
      have : ¬ g.event_responses.all (fun pr => pr.2.isSome) = true := by
        intro hall
        have := List.all_eq_true.mp hall _ hp
        simp at this
      simpa [Game.has_all_players_responded] using this
    simp [Game.process_event, hall]

/-- A concrete state with a staged event and a missing response, witnessing
`staging_exclusivity`. -/
def gExcl : Game :=
  { settings := GameSettings.default,
    board := { talon := [], players := [(1, Player.default), (2, Player.default)] },
    turn_player := [1, 2],
    attack := AttackContext.default,
    staged_event := some .NumberGuessRequired,
    event_queue := { main_queue := [.GameEnded], sub_queue := [] },
    event_responses := [(1, some .RespOk), (2, none)],
    history := [] }

/-- Witness for C3 at a concrete state. -/
theorem staging_exclusivity_witness :
    gExcl.next_event = (.error .EventProcessing, gExcl) ∧
    gExcl.process_event = .errored .NotReady gExcl :=
  ⟨(staging_exclusivity gExcl).1 .NumberGuessRequired rfl,
   (staging_exclusivity gExcl).2 2 (by decide)⟩

/-- A game configured with `max_card_number = 12` (a legal configuration:
the floor is 11), a staged `NumberGuessRequired`, the turn player responding
`NumberGuessed 12` and the opponent acknowledging. -/
def gGuessRange : Game :=
  { settings := { card_colors := [.Black, .White], max_card_number := 12,
                  initial_draw_num := 4 },
    board := { talon := [],
               players := [(1, { field := [Card.new 5 .Black], attacker := none }),
                           (2, Player.default)] },
    turn_player := [1, 2],
    attack := { target_player := some 2, target_card_idx := some 0, guess := none },
    staged_event := some .NumberGuessRequired,
    event_queue := { main_queue := [], sub_queue := [] },
    event_responses := [(1, some (.NumberGuessed 12)), (2, some .RespOk)],
    history := [] }

/-- C1: the guess validation is hardcoded to `0..=11` instead of using
`settings.max_card_number`. At `gGuessRange` the guessed number 12 lies
inside the configured range `[0, 12]`, yet `process_event` rejects it with
`NumberOutOfRange`. -/
theorem number_guess_range_is_hardcoded :
    12 ≤ gGuessRange.settings.max_card_number ∧
    gGuessRange.staged_event = some .NumberGuessRequired ∧
    gGuessRange.process_event.error? =
      some (.ResponseError { kind := .NumberOutOfRange, player := 1,
                             response := .NumberGuessed 12 }) := by
  decide

/-- A game with a staged `NumberGuessRequired` whose turn player responded
with the wrong event kind (`RespOk` instead of a guess). -/
def gWrongKind : Game :=
  { settings := GameSettings.default,
    board := { talon := [],
               players := [(1, { field := [Card.new 5 .Black], attacker := none }),
                           (2, Player.default)] },
    turn_player := [1, 2],
    attack := { target_player := some 2, target_card_idx := some 0, guess := none },
    staged_event := some .NumberGuessRequired,
    event_queue := { main_queue := [], sub_queue := [] },
    event_responses := [(1, some .RespOk), (2, some .RespOk)],
    history := [] }

/-- C2 counterexample: at `gWrongKind` the call returns a response-validation
error, but the event that was staged when `process_event` was called is NOT
staged after the failed call returns — the staged slot is emptied at entry
and never restored. -/
theorem staged_event_not_restored_on_error :
    gWrongKind.staged_event = some .NumberGuessRequired ∧
    gWrongKind.process_event.error? =
      some (.ResponseError { kind := .InvalidGameEventKind .NumberGuessed,
                             player := 1, response := .RespOk }) ∧
    gWrongKind.process_event.after.map Game.staged_event = some none := by
  decide

/-- Shape of the state after a decision response has been consumed. -/
def consumed_turn_resp (g0 g1 : Game) : Prop :=
  ∃ tp, g0.turn_player_id = some tp ∧
    g1 = { g0 with event_responses := alistSet tp none g0.event_responses }

theorem take_turn_player_resp_inv {g : Game} {resp : GameEvent} {g1 : Game}
    (h : g.take_turn_player_resp = some (resp, g1)) :
    ∃ tp, g.turn_player_id = some tp ∧
      alistGet tp g.event_responses = some (some resp) ∧
      g1 = { g with event_responses := alistSet tp none g.event_responses } := by
  unfold Game.take_turn_player_resp at h
  cases htp : g.turn_player_id with
  | none => simp only [htp] at h; simp at h
  | some tp =>
    simp only [htp] at h
    cases hslot : alistGet tp g.event_responses with
    | none => simp only [hslot] at h; simp at h
    | some slot =>
      simp only [hslot] at h
      cases slot with
      | none => simp at h
      | some r =>
        simp only [Option.some.injEq, Prod.mk.injEq] at h
        obtain ⟨hr, hg⟩ := h
        exact ⟨tp, rfl, by rw [hslot, hr], hg.symm⟩

theorem resolve_resp_number_guess_errored {g0 g1 : Game} {e : ProcessEventError}
    (h : g0.resolve_resp_number_guess = .errored e g1) :
    consumed_turn_resp g0 g1 := by
  unfold Game.resolve_resp_number_guess at h
  cases htk : g0.take_turn_player_resp with
  | none => rw [htk] at h; simp at h
  | some pr =>
    obtain ⟨resp, g2⟩ := pr
    rw [htk] at h
    obtain ⟨tp, htp, hget, hg2⟩ := take_turn_player_resp_inv htk
    have hcons : consumed_turn_resp g0 g2 := ⟨tp, htp, hg2⟩
    have htp2 : g2.turn_player_id = some tp := by
      rw [hg2]; exact htp
    cases resp
    case NumberGuessed num =>
      by_cases hn : num ≤ 11
      · simp [hn] at h
      · simp only [hn, if_false, Game.resp_err, htp2] at h
        simp at h
        obtain ⟨he, hg⟩ := h
        rw [← hg]
        exact hcons
    all_goals {
      simp only [Game.resp_err, htp2] at h
      simp at h
      obtain ⟨he, hg⟩ := h
      rw [← hg]
      exact hcons
    }

theorem resolve_resp_attack_target_selection_errored {g0 g1 : Game}
    {e : ProcessEventError}
    (h : g0.resolve_resp_attack_target_selection = .errored e g1) :
    consumed_turn_resp g0 g1 := by
  unfold Game.resolve_resp_attack_target_selection at h
  cases htk : g0.take_turn_player_resp with
  | none => rw [htk] at h; simp at h
  | some pr =>
    obtain ⟨resp, g2⟩ := pr
    rw [htk] at h
    obtain ⟨tp, htp, hget, hg2⟩ := take_turn_player_resp_inv htk
    have hcons : consumed_turn_resp g0 g2 := ⟨tp, htp, hg2⟩
    have htp2 : g2.turn_player_id = some tp := by
      rw [hg2]; exact htp
    cases resp
    case AttackTargetSelected target_idx =>
      cases hat : g2.attack.target_player with
      | none => simp only [hat] at h; simp at h
      | some target =>
        simp only [hat] at h
        cases hver : g2.board.verify_attack_target target target_idx with
        | none => simp only [hver] at h; simp at h
        | some ok =>
          simp only [hver] at h
          cases ok with
          | true => simp at h
          | false =>
            simp only [Game.resp_err, htp2] at h
            simp at h
            obtain ⟨he, hg⟩ := h
            rw [← hg]
            exact hcons
    all_goals {
      simp only [Game.resp_err, htp2] at h
      simp at h
      obtain ⟨he, hg⟩ := h
      rw [← hg]
      exact hcons
    }

theorem resolve_resp_attack_or_stay_decision_errored {g0 g1 : Game}
    {e : ProcessEventError}
    (h : g0.resolve_resp_attack_or_stay_decision = .errored e g1) :
    consumed_turn_resp g0 g1 := by
  unfold Game.resolve_resp_attack_or_stay_decision at h
  cases htk : g0.take_turn_player_resp with
  | none => rw [htk] at h; simp at h
  | some pr =>
    obtain ⟨resp, g2⟩ := pr
    rw [htk] at h
    obtain ⟨tp, htp, hget, hg2⟩ := take_turn_player_resp_inv htk
    have hcons : consumed_turn_resp g0 g2 := ⟨tp, htp, hg2⟩
    have htp2 : g2.turn_player_id = some tp := by
      rw [hg2]; exact htp
    cases resp
    case AttackOrStayDecided attack => simp at h
    all_goals {
      simp only [Game.resp_err, htp2] at h
      simp at h
      obtain ⟨he, hg⟩ := h
      rw [← hg]
      exact hcons
    }

/-- Every error produced by the final acknowledgement scan expects
`RespOk`. -/
theorem scan_resp_ok_errored_kind {m m2 : List (PlayerId × Option GameEvent)}
    {e : ResponseError} (h : scan_resp_ok m = .errored e m2) :
    e.kind = .InvalidGameEventKind .RespOk := by
  induction m generalizing m2 with
  | nil => simp [scan_resp_ok] at h
  | cons pr rest ih =>
    obtain ⟨pid, r⟩ := pr
    unfold scan_resp_ok at h
    cases r with
    | none => simp at h
    | some ev =>
      cases ev
      case RespOk =>
        cases hres : scan_resp_ok rest with
        | panicked => simp only [hres] at h; simp at h
        | errored e2 m3 =>
          simp only [hres] at h
          simp at h
          obtain ⟨he, -⟩ := h
          subst he
          exact ih hres
        | ok m3 => simp only [hres] at h; simp at h
      all_goals {
        simp at h
        obtain ⟨he, -⟩ := h
        subst he
        rfl
      }

theorem validation_error_leaves_state_unchanged :
    ∀ (g g2 : Game) (re : ResponseError),
      (g.staged_event = some .NumberGuessRequired ∨
       (∃ t, g.staged_event = some (.AttackTargetSelectionRequired t)) ∨
       g.staged_event = some .AttackOrStayDecisionRequired) →
      re.kind ≠ .InvalidGameEventKind .RespOk →
      g.process_event = .errored (.ResponseError re) g2 →
      g2.board = g.board ∧ g2.turn_player = g.turn_player ∧
      g2.attack = g.attack ∧ g2.event_queue = g.event_queue ∧
      g2.history = g.history ∧ g2.staged_event = none ∧
      ∃ tp, g.turn_player_id = some tp ∧
        g2.event_responses = alistSet tp none g.event_responses := by
  intro g g2 re hstaged hkind h
  unfold Game.process_event at h
  by_cases hall : g.has_all_players_responded
  · simp only [hall, Bool.not_true, Bool.false_eq_true, if_false] at h
    rcases hstaged with hst | ⟨t, hst⟩ | hst
    · simp only [hst, Game.interpret_event] at h
      cases hres : ({ g with staged_event := none } : Game).resolve_resp_number_guess with
      | panicked => simp only [hres] at h; simp at h
      | errored e g1 =>
        simp only [hres] at h
        simp at h
        obtain ⟨he, hg⟩ := h
        obtain ⟨tp, htp, hg1⟩ := resolve_resp_number_guess_errored hres
        subst hg
        subst hg1
        exact ⟨rfl, rfl, rfl, rfl, rfl, rfl, tp, htp, rfl⟩
      | ok g1 =>
        simp only [hres] at h
        cases hscan : scan_resp_ok g1.event_responses with
        | panicked => simp only [hscan] at h; simp at h
        | errored e m =>
          simp only [hscan] at h
          simp at h
          obtain ⟨he, -⟩ := h
          exact absurd (he ▸ scan_resp_ok_errored_kind hscan) hkind
        | ok m => simp only [hscan] at h; simp at h
    · simp only [hst, Game.interpret_event] at h
      cases hres : ({ g with staged_event := none } : Game).resolve_resp_attack_target_selection with
      | panicked => simp only [hres] at h; simp at h
      | errored e g1 =>
        simp only [hres] at h
        simp at h
        obtain ⟨he, hg⟩ := h
        obtain ⟨tp, htp, hg1⟩ := resolve_resp_attack_target_selection_errored hres
        subst hg
        subst hg1
        exact ⟨rfl, rfl, rfl, rfl, rfl, rfl, tp, htp, rfl⟩
      | ok g1 =>
        simp only [hres] at h
        cases hscan : scan_resp_ok g1.event_responses with
        | panicked => simp only [hscan] at h; simp at h
        | errored e m =>
          simp only [hscan] at h
          simp at h
          obtain ⟨he, -⟩ := h
          exact absurd (he ▸ scan_resp_ok_errored_kind hscan) hkind
        | ok m => simp only [hscan] at h; simp at h
    · simp only [hst, Game.interpret_event] at h
      cases hres : ({ g with staged_event := none } : Game).resolve_resp_attack_or_stay_decision with
      | panicked => simp only [hres] at h; simp at h
      | errored e g1 =>
        simp only [hres] at h
        simp at h
        obtain ⟨he, hg⟩ := h
        obtain ⟨tp, htp, hg1⟩ := resolve_resp_attack_or_stay_decision_errored hres
        subst hg
        subst hg1
        exact ⟨rfl, rfl, rfl, rfl, rfl, rfl, tp, htp, rfl⟩
      | ok g1 =>
        simp only [hres] at h
        cases hscan : scan_resp_ok g1.event_responses with
        | panicked => simp only [hscan] at h; simp at h
        | errored e m =>
          simp only [hscan] at h
          simp at h
          obtain ⟨he, -⟩ := h
          exact absurd (he ▸ scan_resp_ok_errored_kind hscan) hkind
        | ok m => simp only [hscan] at h; simp at h
  · simp only [hall] at h
    simp at h

/-- The state `gWrongKind` reaches after its failed `process_event` call. -/
def gWrongKind2 : Game :=
  { gWrongKind with
     staged_event := none,
     event_responses := [(1, none), (2, some .RespOk)] }

/-- Witness for `validation_error_leaves_state_unchanged` at a concrete
state. -/
theorem validation_error_witness :
    gWrongKind2.board = gWrongKind.board ∧
    gWrongKind2.turn_player = gWrongKind.turn_player ∧
    gWrongKind2.attack = gWrongKind.attack ∧
    gWrongKind2.event_queue = gWrongKind.event_queue ∧
    gWrongKind2.history = gWrongKind.history ∧
    gWrongKind2.staged_event = none ∧
    ∃ tp, gWrongKind.turn_player_id = some tp ∧
      gWrongKind2.event_responses = alistSet tp none gWrongKind.event_responses :=
  validation_error_leaves_state_unchanged gWrongKind gWrongKind2
    { kind := .InvalidGameEventKind .NumberGuessed, player := 1, response := .RespOk }
    (Or.inl rfl) (by decide) (by decide)

/-- Every player's stored response is the generic acknowledgement. -/
abbrev all_resp_ok (m : List (PlayerId × Option GameEvent)) : Prop :=
  ∀ pr ∈ m, pr.2 = some GameEvent.RespOk

/-- Response storage after `process_event` clears it. -/
def cleared (m : List (PlayerId × Option GameEvent)) :
    List (PlayerId × Option GameEvent) :=
  m.map (fun pr => (pr.1, none))

theorem all_responded_of_all_resp_ok {g : Game}
    (h : all_resp_ok g.event_responses) :
    g.has_all_players_responded = true := by
  unfold Game.has_all_players_responded
  rw [List.all_eq_true]
  intro pr hpr
  rw [h pr hpr]
  rfl

theorem scan_resp_ok_all {m : List (PlayerId × Option GameEvent)}
    (h : all_resp_ok m) : scan_resp_ok m = .ok (cleared m) := by
  induction m with
  | nil => rfl
  | cons pr rest ih =>
    obtain ⟨pid, r⟩ := pr
    have hr : r = some .RespOk := h (pid, r) (List.mem_cons_self _ _)
    subst hr
    have hrest : all_resp_ok rest := fun pr2 hpr2 => h pr2 (List.mem_cons_of_mem _ hpr2)
    unfold scan_resp_ok
    rw [ih hrest]
    rfl

theorem process_number_guessed_and_attack_failed :
    (∀ (g : Game) (n : Nat) (tp : PlayerId) (i : Nat) (pl : Player) (card : Card),
      g.staged_event = some (.NumberGuessed n) →
      g.attack.target_player = some tp →
      g.attack.target_card_idx = some i →
      g.attack.guess = some n →
      alistGet tp g.board.players = some pl →
      pl.field.get? i = some card →
      all_resp_ok g.event_responses →
      g.process_event = .ok { g with
        staged_event := none,
        event_queue := g.event_queue.push_main
          (if n == card.priv_info.number then .AttackSucceeded else .AttackFailed),
        event_responses := cleared g.event_responses,
        history := g.history ++ [.NumberGuessed n] }) ∧
    (∀ (g : Game) (tp : PlayerId) (pl : Player) (c c2 : Card) (idx : Nat),
      g.staged_event = some .AttackFailed →
      g.turn_player_id = some tp →
      alistGet tp g.board.players = some pl →
      pl.attacker = some c →
      c2 = { c with pub_info := { c.pub_info with revealed := true } } →
      pl.field.any (fun x => Card.cmp x c2 = .eq) = false →
      idx = pl.field.countP (fun x => Card.cmp x c2 = .lt) →
      all_resp_ok g.event_responses →
      g.process_event = .ok { g with
        board := { g.board with
          players := alistSet tp
            { field := insertAt idx c2 pl.field, attacker := none }
            g.board.players },
        staged_event := none,
        event_queue := ((g.event_queue.push_sub
            (.BoardChanged (.CardRevealed tp .Attacker c2))).push_sub
            (.BoardChanged (.CardMoved tp (.AttackerToField idx) c2.full_view))).push_main
            .TurnEnded,
        event_responses := cleared g.event_responses,
        history := g.history ++ [.AttackFailed] }) := by
  constructor
  · intro g n tp i pl card hst htp hidx hguess hpl hcard hresp
    have hall := all_responded_of_all_resp_ok hresp
    have hscan : scan_resp_ok g.event_responses = .ok (cleared g.event_responses) :=
      scan_resp_ok_all hresp
    simp only [List.get?_eq_getElem?] at hcard
    simp [Game.process_event, Game.interpret_event, Game.resolve_attack,
      Board.resolve_attack, hall, hst, htp, hidx, hguess, hpl, hcard, hscan]
  · intro g tp pl c c2 idx hst htp hpl hatt hc2 hdup hidx hresp
    have hall := all_responded_of_all_resp_ok hresp
    have hscan : scan_resp_ok g.event_responses = .ok (cleared g.event_responses) :=
      scan_resp_ok_all hresp
    subst hc2
    subst hidx
    simp only [Game.turn_player_id] at htp
    simp at hdup
    have hnd : ¬ ∃ x ∈ pl.field,
        Card.cmp x { pub_info := { color := c.pub_info.color, revealed := true },
                     priv_info := c.priv_info } = Ordering.eq := by
      simpa using hdup
    simp [Game.process_event, Game.interpret_event, Game.resolve_failed_attack,
      Board.resolve_failed_attack, Player.insert_card_to_field, Game.turn_player_id,
      Card.full_view, hall, hst, htp, hpl, hatt, hnd, hscan]

def plW5 : Player := { field := [Card.new 7 .Black], attacker := none }

/-- Concrete state for the `NumberGuessed` half of C5: guess 7 against the
card numbered 7 at index 0 of player 2's field. -/
def gW5a : Game :=
  { settings := GameSettings.default,
    board := { talon := [], players := [(1, Player.default), (2, plW5)] },
    turn_player := [1, 2],
    attack := { target_player := some 2, target_card_idx := some 0, guess := some 7 },
    staged_event := some (.NumberGuessed 7),
    event_queue := { main_queue := [], sub_queue := [] },
    event_responses := [(1, some .RespOk), (2, some .RespOk)],
    history := [] }

def cW5 : Card := Card.new 3 .White

def cW5r : Card := { cW5 with pub_info := { cW5.pub_info with revealed := true } }

def plW5b : Player := { field := [Card.new 5 .Black], attacker := some cW5 }

/-- Concrete state for the `AttackFailed` half of C5: the turn player's
drawn card is the white 3, their field holds the black 5. -/
def gW5b : Game :=
  { settings := GameSettings.default,
    board := { talon := [], players := [(1, plW5b), (2, Player.default)] },
    turn_player := [1, 2],
    attack := { target_player := some 2, target_card_idx := none, guess := none },
    staged_event := some .AttackFailed,
    event_queue := { main_queue := [], sub_queue := [] },
    event_responses := [(1, some .RespOk), (2, some .RespOk)],
    history := [] }

/-- Witness for `process_number_guessed_and_attack_failed` at concrete
states. -/
theorem process_number_guessed_and_attack_failed_witness :
    gW5a.process_event = .ok { gW5a with
      staged_event := none,
      event_queue := gW5a.event_queue.push_main
        (if 7 == (Card.new 7 .Black).priv_info.number then .AttackSucceeded
         else .AttackFailed),
      event_responses := cleared gW5a.event_responses,
      history := gW5a.history ++ [.NumberGuessed 7] } ∧
    gW5b.process_event = .ok { gW5b with
      board := { gW5b.board with
        players := alistSet 1
          { field := insertAt 0 cW5r plW5b.field, attacker := none }
          gW5b.board.players },
      staged_event := none,
      event_queue := ((gW5b.event_queue.push_sub
          (.BoardChanged (.CardRevealed 1 .Attacker cW5r))).push_sub
          (.BoardChanged (.CardMoved 1 (.AttackerToField 0) cW5r.full_view))).push_main
          .TurnEnded,
      event_responses := cleared gW5b.event_responses,
      history := gW5b.history ++ [.AttackFailed] } :=
  ⟨process_number_guessed_and_attack_failed.1 gW5a 7 2 0 plW5 (Card.new 7 .Black)
      rfl rfl rfl rfl (by decide) (by decide) (by decide),
   process_number_guessed_and_attack_failed.2 gW5b 1 plW5b cW5 cW5r 0
      rfl rfl (by decide) rfl (by decide) (by decide) (by decide) (by decide)⟩

theorem alistGet_alistSet_self {κ α : Type} [DecidableEq κ] (k : κ) (v v0 : α)
    (m : List (κ × α)) (h : alistGet k m = some v0) :
    alistGet k (alistSet k v m) = some v := by
  induction m with
  | nil => simp [alistGet] at h
  | cons pr rest ih =>
    obtain ⟨k2, v2⟩ := pr
    by_cases hk : k2 = k
    · subst hk
      simp [alistGet, alistSet]
    · simp only [alistGet, alistSet, hk, if_false] at h ⊢
      exact ih h

theorem process_attack_succeeded_and_player_lost :
    (∀ (g : Game) (tp : PlayerId) (i : Nat) (pl : Player) (card c2 : Card)
        (pl2 : Player),
      g.staged_event = some .AttackSucceeded →
      g.attack.target_player = some tp →
      g.attack.target_card_idx = some i →
      alistGet tp g.board.players = some pl →
      pl.field.get? i = some card →
      c2 = { card with pub_info := { card.pub_info with revealed := true } } →
      pl2 = { pl with field := pl.field.set i c2 } →
      all_resp_ok g.event_responses →
      g.process_event = .ok { g with
        board := { g.board with players := alistSet tp pl2 g.board.players },
        staged_event := none,
        event_queue := (g.event_queue.push_sub
            (.BoardChanged (.CardRevealed tp (.Field i) c2))).push_main
            (if pl2.field.all (fun x => x.pub_info.revealed)
             then .AttackedPlayerLost else .AttackOrStayDecisionRequired),
        attack := { g.attack with target_card_idx := none, guess := none },
        event_responses := cleared g.event_responses,
        history := g.history ++ [.AttackSucceeded] }) ∧
    (∀ (g : Game),
      g.staged_event = some .AttackedPlayerLost →
      all_resp_ok g.event_responses →
      g.process_event = .ok { g with
        staged_event := none,
        event_queue := g.event_queue.push_main .GameEnded,
        event_responses := cleared g.event_responses,
        history := g.history ++ [.AttackedPlayerLost] }) := by
  constructor
  · intro g tp i pl card c2 pl2 hst htp hidx hpl hcard hc2 hpl2 hresp
    have hall := all_responded_of_all_resp_ok hresp
    have hscan : scan_resp_ok g.event_responses = .ok (cleared g.event_responses) :=
      scan_resp_ok_all hresp
    simp only [List.get?_eq_getElem?] at hcard
    subst hc2
    subst hpl2
    have hget2 := alistGet_alistSet_self tp ({ pl with field := pl.field.set i { card with pub_info := { card.pub_info with revealed := true } } }) pl g.board.players hpl
    simp [Game.process_event, Game.interpret_event, Game.resolve_succeeded_attack,
      Board.resolve_succeeded_attack, Board.has_player_lost_game,
      hall, hst, htp, hidx, hpl, hcard, hget2, hscan]
  · intro g hst hresp
    have hall := all_responded_of_all_resp_ok hresp
    have hscan : scan_resp_ok g.event_responses = .ok (cleared g.event_responses) :=
      scan_resp_ok_all hresp
    simp [Game.process_event, Game.interpret_event, hall, hst, hscan]

def cW6r : Card :=
  { pub_info := { color := .Black, revealed := true }, priv_info := { number := 2 } }

def cW6u : Card := Card.new 9 .White

def cW6u2 : Card := { cW6u with pub_info := { cW6u.pub_info with revealed := true } }

def plW6 : Player := { field := [cW6r, cW6u], attacker := none }

def plW6b : Player := { plW6 with field := plW6.field.set 1 cW6u2 }

/-- Concrete state for the `AttackSucceeded` half of C6: player 2's field
has one card already revealed and the attack reveals the other, with a
non-empty talon remaining. -/
def gW6a : Game :=
  { settings := GameSettings.default,
    board := { talon := [Card.new 0 .Black],
               players := [(1, Player.default), (2, plW6)] },
    turn_player := [1, 2],
    attack := { target_player := some 2, target_card_idx := some 1, guess := some 9 },
    staged_event := some .AttackSucceeded,
    event_queue := { main_queue := [], sub_queue := [] },
    event_responses := [(1, some .RespOk), (2, some .RespOk)],
    history := [] }

/-- Concrete state for the `AttackedPlayerLost` half of C6. -/
def gW6b : Game :=
  { gW6a with
     staged_event := some .AttackedPlayerLost,
     attack := { target_player := some 2, target_card_idx := none, guess := none } }

/-- Witness for `process_attack_succeeded_and_player_lost` at concrete
states. -/
theorem process_attack_succeeded_and_player_lost_witness :
    gW6a.process_event = .ok { gW6a with
      board := { gW6a.board with players := alistSet 2 plW6b gW6a.board.players },
      staged_event := none,
      event_queue := (gW6a.event_queue.push_sub
          (.BoardChanged (.CardRevealed 2 (.Field 1) cW6u2))).push_main
          (if plW6b.field.all (fun x => x.pub_info.revealed)
           then .AttackedPlayerLost else .AttackOrStayDecisionRequired),
      attack := { gW6a.attack with target_card_idx := none, guess := none },
      event_responses := cleared gW6a.event_responses,
      history := gW6a.history ++ [.AttackSucceeded] } ∧
    gW6b.process_event = .ok { gW6b with
      staged_event := none,
      event_queue := gW6b.event_queue.push_main .GameEnded,
      event_responses := cleared gW6b.event_responses,
      history := gW6b.history ++ [.AttackedPlayerLost] } :=
  ⟨process_attack_succeeded_and_player_lost.1 gW6a 2 1 plW6 cW6u cW6u2 plW6b
      rfl rfl rfl (by decide) (by decide) (by decide) (by decide) (by decide),
   process_attack_succeeded_and_player_lost.2 gW6b rfl (by decide)⟩

theorem talon_exhaustion_is_graceful :
    (∀ (g : Game) (tp : PlayerId),
      g.staged_event = some .TurnPlayerDrewCard →
      g.turn_player_id = some tp →
      g.board.talon = [] →
      all_resp_ok g.event_responses →
      g.process_event = .ok { g with
        staged_event := none,
        event_queue := g.event_queue.push_main .NoCardsLeft,
        event_responses := cleared g.event_responses,
        history := g.history ++ [.TurnPlayerDrewCard] }) ∧
    (∀ (g : Game),
      g.staged_event = some .NoCardsLeft →
      all_resp_ok g.event_responses →
      g.process_event = .ok { g with
        staged_event := none,
        event_queue := g.event_queue.push_main .GameEnded,
        event_responses := cleared g.event_responses,
        history := g.history ++ [.NoCardsLeft] }) := by
  constructor
  · intro g tp hst htp htal hresp
    have hall := all_responded_of_all_resp_ok hresp
    have hscan : scan_resp_ok g.event_responses = .ok (cleared g.event_responses) :=
      scan_resp_ok_all hresp
    simp only [Game.turn_player_id] at htp
    simp [Game.process_event, Game.interpret_event, Game.resolve_turn_player_draw,
      Board.draw, Talon.draw, Game.turn_player_id, hall, hst, htp, htal, hscan]
  · intro g hst hresp
    have hall := all_responded_of_all_resp_ok hresp
    have hscan : scan_resp_ok g.event_responses = .ok (cleared g.event_responses) :=
      scan_resp_ok_all hresp
    simp [Game.process_event, Game.interpret_event, hall, hst, hscan]

/-- Concrete state for the empty-talon half of C7. -/
def gW7a : Game :=
  { settings := GameSettings.default,
    board := { talon := [],
               players := [(1, { field := [Card.new 1 .Black], attacker := none }),
                           (2, { field := [Card.new 2 .White], attacker := none })] },
    turn_player := [1, 2],
    attack := { target_player := some 2, target_card_idx := none, guess := none },
    staged_event := some .TurnPlayerDrewCard,
    event_queue := { main_queue := [], sub_queue := [] },
    event_responses := [(1, some .RespOk), (2, some .RespOk)],
    history := [] }

/-- Concrete state for the `NoCardsLeft` half of C7. -/
def gW7b : Game := { gW7a with staged_event := some .NoCardsLeft }

/-- Witness for `talon_exhaustion_is_graceful` at concrete states. -/
theorem talon_exhaustion_is_graceful_witness :
    gW7a.process_event = .ok { gW7a with
      staged_event := none,
      event_queue := gW7a.event_queue.push_main .NoCardsLeft,
      event_responses := cleared gW7a.event_responses,
      history := gW7a.history ++ [.TurnPlayerDrewCard] } ∧
    gW7b.process_event = .ok { gW7b with
      staged_event := none,
      event_queue := gW7b.event_queue.push_main .GameEnded,
      event_responses := cleared gW7b.event_responses,
      history := gW7b.history ++ [.NoCardsLeft] } :=
  ⟨talon_exhaustion_is_graceful.1 gW7a 1 rfl rfl rfl (by decide),
   talon_exhaustion_is_graceful.2 gW7b rfl (by decide)⟩

theorem create_cards_length (numbers : List Nat) (colors : List CardColor) :
    (create_cards numbers colors).length = numbers.length * colors.length := by
  induction numbers with
  | nil => simp [create_cards]
  | cons n ns ih =>
    simp only [create_cards, List.flatMap_cons, List.length_append,
      List.length_map, List.length_cons] at ih ⊢
    rw [ih]
    ring

theorem for_2_players_spec :
    ∀ (shuffle_talon : List Card → List Card)
      (shuffle_order : List PlayerId → List PlayerId)
      (ids : PlayerId × PlayerId) (s : GameSettings),
      ((Game.for_2_players shuffle_talon shuffle_order ids s).isNone ↔
        (ids.1 = ids.2 ∨ s.card_colors.length < 2 ∨ s.max_card_number < 11 ∨
         (s.max_card_number + 1) * s.card_colors.length ≤ 2 * s.initial_draw_num)) ∧
      ((Game.for_2_players id id (1, 2) GameSettings.default).map
          (fun g => g.board.talon.length) = some 24) ∧
      (((Game.for_2_players id id (1, 2) GameSettings.default).bind
          (Game.run_all_ok 17)).map
          (fun g => (g.board.talon.length,
            g.history.countP (fun e => e.kind == .CardDistributed))) = some (16, 8)) := by
  intro shuffle_talon shuffle_order ids s
  refine ⟨?_, by decide, by decide⟩
  unfold Game.for_2_players GameSettings.build_cards
  have hlen : (create_cards (List.range (s.max_card_number + 1))
      s.card_colors).length = (s.max_card_number + 1) * s.card_colors.length := by
    rw [create_cards_length, List.length_range]
  by_cases h1 : ids.1 = ids.2
  · simp [h1]
  · by_cases h2 : s.card_colors.length < 2
    · simp [h1, h2]
    · by_cases h3 : s.max_card_number < 11
      · simp [h1, h2, h3]
      · by_cases h4 : (s.max_card_number + 1) * s.card_colors.length ≤
            s.initial_draw_num * 2
        · simp [h1, h2, h3, hlen, h4]
          all_goals omega
        · simp [h1, h2, h3, hlen, h4]
          all_goals omega

/-- An event is safe for broadcast if any `CardRevealed` it carries shows a
card whose `revealed` flag is already set. -/
def event_ok : GameEvent → Bool
  | .BoardChanged (.CardRevealed _ _ c) => c.pub_info.revealed
  | _ => true

/-- Both tiers of a queue hold only safe events. -/
def queue_ok (q : EventQueue GameEvent) : Prop :=
  (∀ e ∈ q.sub_queue, event_ok e = true) ∧ (∀ e ∈ q.main_queue, event_ok e = true)

/-- The invariant of C10: everywhere the engine stores events it constructed
(queue, staged slot, history), `CardRevealed` events carry already-revealed
cards. -/
def Game.revealed_events_ok (g : Game) : Prop :=
  queue_ok g.event_queue ∧
  (∀ e, g.staged_event = some e → event_ok e = true) ∧
  (∀ e ∈ g.history, event_ok e = true)

/-- Engine states reachable through the public API. -/
inductive Reachable : Game → Prop where
  | init (shuffle_talon : List Card → List Card)
      (shuffle_order : List PlayerId → List PlayerId)
      (ids : PlayerId × PlayerId) (s : GameSettings) (g : Game) :
      Game.for_2_players shuffle_talon shuffle_order ids s = some g →
      Reachable g
  | next (g : Game) (evs : List (PlayerId × GameEvent)) (g2 : Game) :
      Reachable g → g.next_event = (.ok evs, g2) → Reachable g2
  | next_err (g : Game) (e : NextEventError) (g2 : Game) :
      Reachable g → g.next_event = (.error e, g2) → Reachable g2
  | store (g : Game) (p : PlayerId) (r : GameEvent) (b : Bool) (g2 : Game) :
      Reachable g → g.store_player_response p r = some (b, g2) → Reachable g2
  | process_ok (g g2 : Game) :
      Reachable g → g.process_event = .ok g2 → Reachable g2
  | process_err (g : Game) (e : ProcessEventError) (g2 : Game) :
      Reachable g → g.process_event = .errored e g2 → Reachable g2

theorem queue_ok_push_main {q : EventQueue GameEvent} {e : GameEvent}
    (hq : queue_ok q) (he : event_ok e = true) : queue_ok (q.push_main e) := by
  obtain ⟨hs, hm⟩ := hq
  refine ⟨hs, ?_⟩
  intro x hx
  rw [EventQueue.push_main] at hx
  simp only [List.mem_append, List.mem_singleton] at hx
  rcases hx with hx | hx
  · exact hm x hx
  · rw [hx]; exact he

theorem queue_ok_push_sub {q : EventQueue GameEvent} {e : GameEvent}
    (hq : queue_ok q) (he : event_ok e = true) : queue_ok (q.push_sub e) := by
  obtain ⟨hs, hm⟩ := hq
  refine ⟨?_, hm⟩
  intro x hx
  rw [EventQueue.push_sub] at hx
  simp only [List.mem_append, List.mem_singleton] at hx
  rcases hx with hx | hx
  · exact hs x hx
  · rw [hx]; exact he

theorem queue_ok_pop_next {q q2 : EventQueue GameEvent} {e : GameEvent}
    (hq : queue_ok q) (h : q.pop_next = some (e, q2)) :
    event_ok e = true ∧ queue_ok q2 := by
  obtain ⟨hs, hm⟩ := hq
  unfold EventQueue.pop_next at h
  cases hsub : q.sub_queue with
  | cons x rest =>
    rw [hsub] at h
    simp only [Option.some.injEq, Prod.mk.injEq] at h
    obtain ⟨hx, hq2⟩ := h
    subst hx
    subst hq2
    refine ⟨hs _ (by rw [hsub]; exact List.mem_cons_self _ _), ?_, ?_⟩
    · intro y hy
      exact hs y (by rw [hsub]; exact List.mem_cons_of_mem _ hy)
    · intro y hy
      exact hm y hy
  | nil =>
    rw [hsub] at h
    cases hmain : q.main_queue with
    | nil => rw [hmain] at h; simp at h
    | cons x rest =>
      rw [hmain] at h
      simp only [Option.some.injEq, Prod.mk.injEq] at h
      obtain ⟨hx, hq2⟩ := h
      subst hx
      subst hq2
      refine ⟨hm _ (by rw [hmain]; exact List.mem_cons_self _ _), ?_, ?_⟩
      · intro y hy
        simp at hy
      · intro y hy
        exact hm y (by rw [hmain]; exact List.mem_cons_of_mem _ hy)

theorem draw_direct_change_ok {b : Board} {p : PlayerId} {change : BoardChange}
    {b2 : Board} (h : b.draw_direct p = some (change, b2)) :
    event_ok (.BoardChanged change) = true := by
  unfold Board.draw_direct at h
  cases hd : Talon.draw b.talon with
  | none => rw [hd] at h; simp at h
  | some pr =>
    obtain ⟨card, t2⟩ := pr
    simp only [hd] at h
    cases hg : alistGet p b.players with
    | none => simp only [hg] at h; simp at h
    | some pl =>
      simp only [hg] at h
      cases hi : pl.insert_card_to_field card with
      | none => simp only [hi] at h; simp at h
      | some pr2 =>
        simp only [hi] at h
        simp at h
        rw [← h.1]
        rfl

theorem draw_change_ok {b : Board} {p : PlayerId} {change : BoardChange}
    {b2 : Board} (h : b.draw p = some (some (change, b2))) :
    event_ok (.BoardChanged change) = true := by
  unfold Board.draw at h
  cases hd : Talon.draw b.talon with
  | none => rw [hd] at h; simp at h
  | some pr =>
    obtain ⟨card, t2⟩ := pr
    simp only [hd] at h
    cases hg : alistGet p b.players with
    | none => simp only [hg] at h; simp at h
    | some pl =>
      simp only [hg] at h
      cases hi : pl.insert_attacker card with
      | none => simp only [hi] at h; simp at h
      | some p2 =>
        simp only [hi] at h
        simp at h
        rw [← h.1]
        rfl

theorem resolve_succeeded_attack_change_ok {b : Board} {p : PlayerId} {i : Nat}
    {change : BoardChange} {b2 : Board}
    (h : b.resolve_succeeded_attack p i = some (change, b2)) :
    event_ok (.BoardChanged change) = true := by
  unfold Board.resolve_succeeded_attack at h
  cases hg : alistGet p b.players with
  | none => simp only [hg] at h; simp at h
  | some pl =>
    simp only [hg] at h
    cases hc : pl.field.get? i with
    | none => simp only [hc] at h; simp at h
    | some card =>
      simp only [hc] at h
      simp at h
      rw [← h.1]
      rfl

theorem resolve_failed_attack_changes_ok {b : Board} {p : PlayerId}
    {c1 c2 : BoardChange} {b2 : Board}
    (h : b.resolve_failed_attack p = some (c1, c2, b2)) :
    event_ok (.BoardChanged c1) = true ∧ event_ok (.BoardChanged c2) = true := by
  unfold Board.resolve_failed_attack at h
  cases hg : alistGet p b.players with
  | none => simp only [hg] at h; simp at h
  | some pl =>
    simp only [hg] at h
    cases ha : pl.attacker with
    | none => simp only [ha] at h; simp at h
    | some card =>
      simp only [ha] at h
      cases hi : Player.insert_card_to_field { pl with attacker := none }
          { card with pub_info := { card.pub_info with revealed := true } } with
      | none => simp only [hi] at h; simp at h
      | some pr2 =>
        simp only [hi] at h
        simp at h
        exact ⟨by rw [← h.1]; rfl, by rw [← h.2.1]; rfl⟩

theorem resolve_stay_change_ok {b : Board} {p : PlayerId}
    {change : BoardChange} {b2 : Board}
    (h : b.resolve_stay p = some (change, b2)) :
    event_ok (.BoardChanged change) = true := by
  unfold Board.resolve_stay at h
  cases hg : alistGet p b.players with
  | none => simp only [hg] at h; simp at h
  | some pl =>
    simp only [hg] at h
    cases ha : pl.attacker with
    | none => simp only [ha] at h; simp at h
    | some card =>
      simp only [ha] at h
      cases hi : Player.insert_card_to_field { pl with attacker := none } card with
      | none => simp only [hi] at h; simp at h
      | some pr2 =>
        simp only [hi] at h
        simp at h
        rw [← h.1]
        rfl

theorem foldl_push_card_distributed_ok (l : List PlayerId)
    (q : EventQueue GameEvent) (hq : queue_ok q) :
    queue_ok (l.foldl (fun q3 pid => q3.push_main (.CardDistributed pid)) q) := by
  induction l generalizing q with
  | nil => exact hq
  | cons x xs ih => exact ih _ (queue_ok_push_main hq rfl)

theorem foldl_deal_ok (r : List Nat) (order : List PlayerId)
    (q : EventQueue GameEvent) (hq : queue_ok q) :
    queue_ok (r.foldl
      (fun q2 _ => order.foldl (fun q3 pid => q3.push_main (.CardDistributed pid)) q2)
      q) := by
  induction r generalizing q with
  | nil => exact hq
  | cons x xs ih => exact ih _ (foldl_push_card_distributed_ok order q hq)

/-- The three unchanged components every `interpret_event` outcome keeps. -/
def frame_ok (g g1 : Game) : Prop :=
  (queue_ok g.event_queue → queue_ok g1.event_queue) ∧
  g1.staged_event = g.staged_event ∧ g1.history = g.history

theorem frame_ok_of_consumed {g g1 : Game} (h : consumed_turn_resp g g1) :
    frame_ok g g1 := by
  obtain ⟨tp, htp, hg1⟩ := h
  subst hg1
  exact ⟨fun hq => hq, rfl, rfl⟩

theorem start_game_frame {g g1 : Game} (h : g.start_game = some g1) :
    frame_ok g g1 := by
  unfold Game.start_game at h
  cases htp : g.turn_player_id with
  | none => simp only [htp] at h; simp at h
  | some tp =>
    simp only [htp] at h
    simp at h
    subst h
    refine ⟨fun hq => ?_, rfl, rfl⟩
    exact queue_ok_push_main
      (foldl_deal_ok _ _ _ (queue_ok_push_main hq rfl)) rfl

theorem start_turn_frame {g g1 : Game} (h : g.start_turn = some g1) :
    frame_ok g g1 := by
  unfold Game.start_turn at h
  cases hr : TurnPlayer.advance g.turn_player with
  | none => simp only [hr] at h; simp at h
  | some rotated =>
    simp only [hr] at h
    cases hh : rotated.head? with
    | none => simp only [hh] at h; simp at h
    | some t =>
      simp only [hh] at h
      simp at h
      subst h
      exact ⟨fun hq => hq, rfl, rfl⟩

theorem resolve_turn_player_draw_frame {g g1 : Game}
    (h : g.resolve_turn_player_draw = some g1) : frame_ok g g1 := by
  unfold Game.resolve_turn_player_draw at h
  cases htp : g.turn_player_id with
  | none => simp only [htp] at h; simp at h
  | some tp =>
    simp only [htp] at h
    cases hd : g.board.draw tp with
    | none => simp only [hd] at h; simp at h
    | some dres =>
      simp only [hd] at h
      cases dres with
      | none =>
        simp at h
        subst h
        exact ⟨fun hq => queue_ok_push_main hq rfl, rfl, rfl⟩
      | some pr =>
        obtain ⟨change, board2⟩ := pr
        cases hat : g.attack.target_player with
        | none => simp only [hat] at h; simp at h
        | some target =>
          simp only [hat] at h
          simp at h
          subst h
          refine ⟨fun hq => ?_, rfl, rfl⟩
          exact queue_ok_push_main
            (queue_ok_push_sub hq (draw_change_ok hd)) rfl

theorem resolve_attack_frame {g g1 : Game} (h : g.resolve_attack = some g1) :
    frame_ok g g1 := by
  unfold Game.resolve_attack at h
  cases hat : g.attack.target_player with
  | none => simp only [hat] at h; simp at h
  | some attacked =>
    cases hidx : g.attack.target_card_idx with
    | none => simp only [hat, hidx] at h; simp at h
    | some target_idx =>
      cases hgs : g.attack.guess with
      | none => simp only [hat, hidx, hgs] at h; simp at h
      | some guess =>
        simp only [hat, hidx, hgs] at h
        cases hres : g.board.resolve_attack attacked target_idx guess with
        | none => simp only [hres] at h; simp at h
        | some res =>
          simp only [hres] at h
          simp at h
          subst h
          refine ⟨fun hq => queue_ok_push_main hq ?_, rfl, rfl⟩
          cases res <;> rfl

theorem resolve_succeeded_attack_frame {g g1 : Game}
    (h : g.resolve_succeeded_attack = some g1) : frame_ok g g1 := by
  unfold Game.resolve_succeeded_attack at h
  cases hat : g.attack.target_player with
  | none => simp only [hat] at h; simp at h
  | some attacked =>
    cases hidx : g.attack.target_card_idx with
    | none => simp only [hat, hidx] at h; simp at h
    | some target_idx =>
      simp only [hat, hidx] at h
      cases hres : g.board.resolve_succeeded_attack attacked target_idx with
      | none => simp only [hres] at h; simp at h
      | some pr =>
        obtain ⟨change, board2⟩ := pr
        simp only [hres] at h
        cases hlost : board2.has_player_lost_game attacked with
        | none => simp only [hlost] at h; simp at h
        | some res =>
          simp only [hlost] at h
          simp at h
          subst h
          refine ⟨fun hq => ?_, rfl, rfl⟩
          refine queue_ok_push_main
            (queue_ok_push_sub hq (resolve_succeeded_attack_change_ok hres)) ?_
          cases res <;> rfl

theorem resolve_failed_attack_frame {g g1 : Game}
    (h : g.resolve_failed_attack = some g1) : frame_ok g g1 := by
  unfold Game.resolve_failed_attack at h
  cases htp : g.turn_player_id with
  | none => simp only [htp] at h; simp at h
  | some attacker =>
    simp only [htp] at h
    cases hres : g.board.resolve_failed_attack attacker with
    | none => simp only [hres] at h; simp at h
    | some pr =>
      obtain ⟨c1, c2, board2⟩ := pr
      simp only [hres] at h
      simp at h
      subst h
      refine ⟨fun hq => ?_, rfl, rfl⟩
      obtain ⟨h1, h2⟩ := resolve_failed_attack_changes_ok hres
      exact queue_ok_push_main (queue_ok_push_sub (queue_ok_push_sub hq h1) h2) rfl

theorem resolve_stay_frame {g g1 : Game} (h : g.resolve_stay = some g1) :
    frame_ok g g1 := by
  unfold Game.resolve_stay at h
  cases htp : g.turn_player_id with
  | none => simp only [htp] at h; simp at h
  | some tp =>
    simp only [htp] at h
    cases hres : g.board.resolve_stay tp with
    | none => simp only [hres] at h; simp at h
    | some pr =>
      obtain ⟨change, board2⟩ := pr
      simp only [hres] at h
      simp at h
      subst h
      refine ⟨fun hq => ?_, rfl, rfl⟩
      exact queue_ok_push_main (queue_ok_push_sub hq (resolve_stay_change_ok hres)) rfl

theorem end_turn_frame {g g1 : Game} (h : g.end_turn = some g1) :
    frame_ok g g1 := by
  unfold Game.end_turn at h
  cases hr : TurnPlayer.advance g.turn_player with
  | none => simp only [hr] at h; simp at h
  | some rotated =>
    simp only [hr] at h
    simp at h
    subst h
    exact ⟨fun hq => hq, rfl, rfl⟩

theorem match_resp_err_ne_ok {gx g1 : Game} {K : ResponseErrorKind} {R : GameEvent}
    (h : (match gx.resp_err K R with
          | none => StepRes.panicked
          | some e => StepRes.errored e gx) = .ok g1) : False := by
  cases hre : gx.resp_err K R <;> simp only [hre] at h <;> simp at h

theorem resolve_resp_attack_target_selection_ok_frame {g g1 : Game}
    (h : g.resolve_resp_attack_target_selection = .ok g1) : frame_ok g g1 := by
  unfold Game.resolve_resp_attack_target_selection at h
  cases htk : g.take_turn_player_resp with
  | none => rw [htk] at h; simp at h
  | some pr =>
    obtain ⟨resp, g2⟩ := pr
    simp only [htk] at h
    obtain ⟨tp, htp, hget, hg2⟩ := take_turn_player_resp_inv htk
    cases resp
    case AttackTargetSelected target_idx =>
      cases hat : g2.attack.target_player with
      | none => simp only [hat] at h; simp at h
      | some target =>
        simp only [hat] at h
        cases hver : g2.board.verify_attack_target target target_idx with
        | none => simp only [hver] at h; simp at h
        | some ok =>
          simp only [hver] at h
          cases ok with
          | false =>
            cases hre : g2.resp_err .InvalidAttackTarget
                (.AttackTargetSelected target_idx) with
            | none => simp only [hre] at h; simp at h
            | some e => simp only [hre] at h; simp at h
          | true =>
            simp at h
            subst h
            subst hg2
            exact ⟨fun hq => queue_ok_push_main hq rfl, rfl, rfl⟩
    all_goals exact (match_resp_err_ne_ok h).elim

theorem resolve_resp_number_guess_ok_frame {g g1 : Game}
    (h : g.resolve_resp_number_guess = .ok g1) : frame_ok g g1 := by
  unfold Game.resolve_resp_number_guess at h
  cases htk : g.take_turn_player_resp with
  | none => rw [htk] at h; simp at h
  | some pr =>
    obtain ⟨resp, g2⟩ := pr
    simp only [htk] at h
    obtain ⟨tp, htp, hget, hg2⟩ := take_turn_player_resp_inv htk
    cases resp
    case NumberGuessed num =>
      by_cases hn : num ≤ 11
      · simp only [hn, if_true] at h
        simp at h
        subst h
        subst hg2
        exact ⟨fun hq => queue_ok_push_main hq rfl, rfl, rfl⟩
      · simp only [hn, if_false] at h
        cases hre : g2.resp_err .NumberOutOfRange (.NumberGuessed num) with
        | none => simp only [hre] at h; simp at h
        | some e => simp only [hre] at h; simp at h
    all_goals exact (match_resp_err_ne_ok h).elim

theorem resolve_resp_attack_or_stay_decision_ok_frame {g g1 : Game}
    (h : g.resolve_resp_attack_or_stay_decision = .ok g1) : frame_ok g g1 := by
  unfold Game.resolve_resp_attack_or_stay_decision at h
  cases htk : g.take_turn_player_resp with
  | none => rw [htk] at h; simp at h
  | some pr =>
    obtain ⟨resp, g2⟩ := pr
    simp only [htk] at h
    obtain ⟨tp, htp, hget, hg2⟩ := take_turn_player_resp_inv htk
    cases resp
    case AttackOrStayDecided attack =>
      simp at h
      subst h
      subst hg2
      exact ⟨fun hq => queue_ok_push_main hq rfl, rfl, rfl⟩
    all_goals exact (match_resp_err_ne_ok h).elim

theorem interpret_event_frame {g : Game} {ev : GameEvent} :
    (∀ g1, g.interpret_event ev = .ok g1 → frame_ok g g1) ∧
    (∀ e g1, g.interpret_event ev = .errored e g1 → frame_ok g g1) := by
  constructor
  · intro g1 h
    cases ev with
    | BoardChanged change =>
      simp only [Game.interpret_event] at h
      simp at h
      subst h
      exact ⟨fun hq => hq, rfl, rfl⟩
    | GameStarted tv =>
      simp only [Game.interpret_event] at h
      cases hsg : g.start_game with
      | none => simp only [hsg] at h; simp at h
      | some gx =>
        simp only [hsg] at h
        simp at h
        subst h
        exact start_game_frame hsg
    | TurnOrderDetermined order =>
      simp only [Game.interpret_event] at h
      simp at h
      subst h
      exact ⟨fun hq => hq, rfl, rfl⟩
    | CardDistributed pid =>
      simp only [Game.interpret_event] at h
      cases hdd : g.board.draw_direct pid with
      | none => simp only [hdd] at h; simp at h
      | some pr =>
        obtain ⟨change, b2⟩ := pr
        simp only [hdd] at h
        simp at h
        subst h
        exact ⟨fun hq => queue_ok_push_sub hq (draw_direct_change_ok hdd), rfl, rfl⟩
    | TurnStarted pid =>
      simp only [Game.interpret_event] at h
      cases hstt : g.start_turn with
      | none => simp only [hstt] at h; simp at h
      | some gx =>
        simp only [hstt] at h
        simp at h
        subst h
        obtain ⟨hqi, hsi, hhi⟩ := start_turn_frame hstt
        exact ⟨fun hq => queue_ok_push_main (hqi hq) rfl, hsi, hhi⟩
    | TurnPlayerDrewCard =>
      simp only [Game.interpret_event] at h
      cases hr : g.resolve_turn_player_draw with
      | none => simp only [hr] at h; simp at h
      | some gx =>
        simp only [hr] at h
        simp at h
        subst h
        exact resolve_turn_player_draw_frame hr
    | NoCardsLeft =>
      simp only [Game.interpret_event] at h
      simp at h
      subst h
      exact ⟨fun hq => queue_ok_push_main hq rfl, rfl, rfl⟩
    | AttackTargetSelectionRequired t =>
      simp only [Game.interpret_event] at h
      exact resolve_resp_attack_target_selection_ok_frame h
    | AttackTargetSelected i =>
      simp only [Game.interpret_event] at h
      simp at h
      subst h
      exact ⟨fun hq => queue_ok_push_main hq rfl, rfl, rfl⟩
    | NumberGuessRequired =>
      simp only [Game.interpret_event] at h
      exact resolve_resp_number_guess_ok_frame h
    | NumberGuessed n =>
      simp only [Game.interpret_event] at h
      cases hr : g.resolve_attack with
      | none => simp only [hr] at h; simp at h
      | some gx =>
        simp only [hr] at h
        simp at h
        subst h
        exact resolve_attack_frame hr
    | AttackSucceeded =>
      simp only [Game.interpret_event] at h
      cases hr : g.resolve_succeeded_attack with
      | none => simp only [hr] at h; simp at h
      | some gx =>
        simp only [hr] at h
        simp at h
        subst h
        exact resolve_succeeded_attack_frame hr
    | AttackFailed =>
      simp only [Game.interpret_event] at h
      cases hr : g.resolve_failed_attack with
      | none => simp only [hr] at h; simp at h
      | some gx =>
        simp only [hr] at h
        simp at h
        subst h
        exact resolve_failed_attack_frame hr
    | AttackedPlayerLost =>
      simp only [Game.interpret_event] at h
      simp at h
      subst h
      exact ⟨fun hq => queue_ok_push_main hq rfl, rfl, rfl⟩
    | GameEnded =>
      simp only [Game.interpret_event] at h
      simp at h
      subst h
      exact ⟨fun hq => hq, rfl, rfl⟩
    | AttackOrStayDecisionRequired =>
      simp only [Game.interpret_event] at h
      exact resolve_resp_attack_or_stay_decision_ok_frame h
    | AttackOrStayDecided attack =>
      simp only [Game.interpret_event] at h
      split at h
      · cases hat : g.attack.target_player with
        | none => simp only [hat] at h; simp at h
        | some target =>
          simp only [hat] at h
          simp at h
          subst h
          exact ⟨fun hq => queue_ok_push_main hq rfl, rfl, rfl⟩
      · cases hr : g.resolve_stay with
        | none => simp only [hr] at h; simp at h
        | some gx =>
          simp only [hr] at h
          simp at h
          subst h
          exact resolve_stay_frame hr
    | TurnEnded =>
      simp only [Game.interpret_event] at h
      cases he : g.end_turn with
      | none => simp only [he] at h; simp at h
      | some gx =>
        simp only [he] at h
        cases htp : gx.turn_player_id with
        | none => simp only [htp] at h; simp at h
        | some tp =>
          simp only [htp] at h
          simp at h
          subst h
          obtain ⟨hqi, hsi, hhi⟩ := end_turn_frame he
          exact ⟨fun hq => queue_ok_push_main (hqi hq) rfl, hsi, hhi⟩
    | RespOk =>
      simp only [Game.interpret_event] at h
      simp at h
  · intro e g1 h
    cases ev with
    | AttackTargetSelectionRequired t =>
      simp only [Game.interpret_event] at h
      exact frame_ok_of_consumed (resolve_resp_attack_target_selection_errored h)
    | NumberGuessRequired =>
      simp only [Game.interpret_event] at h
      exact frame_ok_of_consumed (resolve_resp_number_guess_errored h)
    | AttackOrStayDecisionRequired =>
      simp only [Game.interpret_event] at h
      exact frame_ok_of_consumed (resolve_resp_attack_or_stay_decision_errored h)
    | GameStarted tv =>
      simp only [Game.interpret_event] at h
      cases hsg : g.start_game with
      | none => simp only [hsg] at h; simp at h
      | some gx => simp only [hsg] at h; simp at h
    | CardDistributed pid =>
      simp only [Game.interpret_event] at h
      cases hdd : g.board.draw_direct pid with
      | none => simp only [hdd] at h; simp at h
      | some pr => simp only [hdd] at h; simp at h
    | TurnStarted pid =>
      simp only [Game.interpret_event] at h
      cases hstt : g.start_turn with
      | none => simp only [hstt] at h; simp at h
      | some gx => simp only [hstt] at h; simp at h
    | TurnPlayerDrewCard =>
      simp only [Game.interpret_event] at h
      cases hr : g.resolve_turn_player_draw with
      | none => simp only [hr] at h; simp at h
      | some gx => simp only [hr] at h; simp at h
    | NumberGuessed n =>
      simp only [Game.interpret_event] at h
      cases hr : g.resolve_attack with
      | none => simp only [hr] at h; simp at h
      | some gx => simp only [hr] at h; simp at h
    | AttackSucceeded =>
      simp only [Game.interpret_event] at h
      cases hr : g.resolve_succeeded_attack with
      | none => simp only [hr] at h; simp at h
      | some gx => simp only [hr] at h; simp at h
    | AttackFailed =>
      simp only [Game.interpret_event] at h
      cases hr : g.resolve_failed_attack with
      | none => simp only [hr] at h; simp at h
      | some gx => simp only [hr] at h; simp at h
    | AttackOrStayDecided attack =>
      simp only [Game.interpret_event] at h
      split at h
      · cases hat : g.attack.target_player with
        | none => simp only [hat] at h; simp at h
        | some target => simp only [hat] at h; simp at h
      · cases hr : g.resolve_stay with
        | none => simp only [hr] at h; simp at h
        | some gx => simp only [hr] at h; simp at h
    | TurnEnded =>
      simp only [Game.interpret_event] at h
      cases he : g.end_turn with
      | none => simp only [he] at h; simp at h
      | some gx =>
        simp only [he] at h
        cases htp : gx.turn_player_id with
        | none => simp only [htp] at h; simp at h
        | some tp => simp only [htp] at h; simp at h
    | BoardChanged change => simp only [Game.interpret_event] at h; simp at h
    | TurnOrderDetermined order => simp only [Game.interpret_event] at h; simp at h
    | NoCardsLeft => simp only [Game.interpret_event] at h; simp at h
    | AttackTargetSelected i => simp only [Game.interpret_event] at h; simp at h
    | AttackedPlayerLost => simp only [Game.interpret_event] at h; simp at h
    | GameEnded => simp only [Game.interpret_event] at h; simp at h
    | RespOk => simp only [Game.interpret_event] at h; simp at h

theorem process_event_preserves {g g2 : Game} (hinv : g.revealed_events_ok) :
    (g.process_event = .ok g2 → g2.revealed_events_ok) ∧
    (∀ e, g.process_event = .errored e g2 → g2.revealed_events_ok) := by
  obtain ⟨hq, hstg, hhist⟩ := hinv
  have core : ∀ (res : StepRes), g.process_event = res →
      (∀ gx, res = .ok gx → gx.revealed_events_ok) ∧
      (∀ e gx, res = .errored e gx → gx.revealed_events_ok) := by
    intro res hres
    unfold Game.process_event at hres
    by_cases hall : g.has_all_players_responded
    · simp only [hall, Bool.not_true, Bool.false_eq_true, if_false] at hres
      cases hstaged : g.staged_event with
      | none => simp only [hstaged] at hres; subst hres; simp
      | some event =>
        simp only [hstaged] at hres
        have hev : event_ok event = true := hstg event hstaged
        cases hint : ({ g with staged_event := none } : Game).interpret_event event with
        | panicked => simp only [hint] at hres; subst hres; simp
        | errored e1 g1 =>
          simp only [hint] at hres
          subst hres
          obtain ⟨hqi, hsi, hhi⟩ :=
            (@interpret_event_frame { g with staged_event := none } event).2 e1 g1 hint
          constructor
          · intro gx hgx; simp at hgx
          · intro e gx hgx
            simp at hgx
            obtain ⟨-, hgx⟩ := hgx
            subst hgx
            exact ⟨hqi hq, by rw [hsi]; intro e2 h2; simp at h2, by rw [hhi]; exact hhist⟩
        | ok g1 =>
          simp only [hint] at hres
          obtain ⟨hqi, hsi, hhi⟩ :=
            (@interpret_event_frame { g with staged_event := none } event).1 g1 hint
          cases hscan : scan_resp_ok g1.event_responses with
          | panicked => simp only [hscan] at hres; subst hres; simp
          | errored e1 m =>
            simp only [hscan] at hres
            subst hres
            constructor
            · intro gx hgx; simp at hgx
            · intro e gx hgx
              simp at hgx
              obtain ⟨-, hgx⟩ := hgx
              subst hgx
              refine ⟨hqi hq, ?_, ?_⟩
              · show ∀ e2, g1.staged_event = some e2 → event_ok e2 = true
                rw [hsi]
                intro e2 h2
                simp at h2
              · show ∀ e2 ∈ g1.history, event_ok e2 = true
                rw [hhi]
                exact hhist
          | ok m =>
            simp only [hscan] at hres
            subst hres
            constructor
            · intro gx hgx
              simp at hgx
              subst hgx
              refine ⟨hqi hq, ?_, ?_⟩
              · show ∀ e2, g1.staged_event = some e2 → event_ok e2 = true
                rw [hsi]
                intro e2 h2
                simp at h2
              · intro e2 h2
                simp only [List.mem_append, List.mem_singleton] at h2
                rcases h2 with h2 | h2
                · exact hhist e2 (hhi ▸ h2)
                · rw [h2]; exact hev
            · intro e gx hgx; simp at hgx
    · simp only [hall] at hres
      simp at hres
      subst hres
      constructor
      · intro gx hgx; simp at hgx
      · intro e gx hgx
        simp at hgx
        obtain ⟨-, hgx⟩ := hgx
        subst hgx
        exact ⟨hq, hstg, hhist⟩
  constructor
  · intro h
    exact ((core _ h).1 g2 rfl)
  · intro e h
    exact ((core _ h).2 e g2 rfl)

theorem next_event_preserves {g g2 : Game} (hinv : g.revealed_events_ok) :
    (∀ evs, g.next_event = (.ok evs, g2) → g2.revealed_events_ok) ∧
    (∀ e, g.next_event = (.error e, g2) → g2.revealed_events_ok) := by
  obtain ⟨hq, hstg, hhist⟩ := hinv
  constructor
  · intro evs h
    unfold Game.next_event at h
    by_cases hs : g.is_event_staged
    · simp [hs] at h
    · simp only [hs, Bool.false_eq_true, if_false] at h
      cases hp : g.event_queue.pop_next with
      | none => simp only [hp] at h; simp at h
      | some pr =>
        obtain ⟨event, q2⟩ := pr
        simp only [hp] at h
        simp at h
        obtain ⟨-, hgx⟩ := h
        subst hgx
        obtain ⟨hev, hq2⟩ := queue_ok_pop_next ⟨hq.1, hq.2⟩ hp
        refine ⟨hq2, ?_, hhist⟩
        intro e2 h2
        simp at h2
        rw [← h2]
        exact hev
  · intro e h
    unfold Game.next_event at h
    by_cases hs : g.is_event_staged
    · simp only [hs, if_true] at h
      simp at h
      obtain ⟨-, hgx⟩ := h
      subst hgx
      exact ⟨hq, hstg, hhist⟩
    · simp only [hs, Bool.false_eq_true, if_false] at h
      cases hp : g.event_queue.pop_next with
      | none =>
        simp only [hp] at h
        simp at h
        obtain ⟨-, hgx⟩ := h
        subst hgx
        exact ⟨hq, hstg, hhist⟩
      | some pr =>
        obtain ⟨event, q2⟩ := pr
        simp only [hp] at h
        simp at h

theorem store_player_response_preserves {g g2 : Game} {p : PlayerId}
    {r : GameEvent} {b : Bool} (hinv : g.revealed_events_ok)
    (h : g.store_player_response p r = some (b, g2)) : g2.revealed_events_ok := by
  obtain ⟨hq, hstg, hhist⟩ := hinv
  unfold Game.store_player_response at h
  cases hg : alistGet p g.event_responses with
  | none => simp only [hg] at h; simp at h
  | some slot =>
    simp only [hg] at h
    simp at h
    obtain ⟨-, hgx⟩ := h
    subst hgx
    exact ⟨hq, hstg, hhist⟩

theorem for_2_players_invariant {shT : List Card → List Card}
    {shO : List PlayerId → List PlayerId} {ids : PlayerId × PlayerId}
    {s : GameSettings} {g : Game}
    (h : Game.for_2_players shT shO ids s = some g) : g.revealed_events_ok := by
  unfold Game.for_2_players at h
  by_cases h1 : ids.1 = ids.2
  · simp [h1] at h
  · simp only [h1, if_false] at h
    cases hb : s.build_cards with
    | none => rw [hb] at h; simp at h
    | some cards =>
      rw [hb] at h
      by_cases h4 : cards.length ≤ s.initial_draw_num * 2
      · simp [h4] at h
      · simp only [Option.bind_eq_bind, Option.some_bind, h4, if_false] at h
        simp at h
        subst h
        refine ⟨⟨?_, ?_⟩, ?_, ?_⟩
        · intro e he
          simp at he
        · intro e he
          simp at he
          rw [he]
          rfl
        · intro e he
          simp at he
        · intro e he
          simp at he

/-- C10: in every reachable game state, every `BoardChange.CardRevealed`
event held in the event queue, the staged slot, or the history carries a card
whose `revealed` flag is set (the board is updated before the event is
built); and per-viewer redaction (`BoardChange::view`) passes `CardRevealed`
events through unchanged, so this invariant is what keeps unrevealed numbers
from reaching an opponent through a `CardRevealed` event. -/
theorem reachable_card_revealed_already_revealed :
    (∀ g, Reachable g → g.revealed_events_ok) ∧
    (∀ (p : PlayerId) (l : CardLocation) (c : Card) (v : PlayerId),
      (BoardChange.CardRevealed p l c).view v = .CardRevealed p l c) := by
  constructor
  · intro g hr
    induction hr with
    | init shT shO ids s g h => exact for_2_players_invariant h
    | next g evs g2 hr h ih => exact (next_event_preserves ih).1 evs h
    | next_err g e g2 hr h ih => exact (next_event_preserves ih).2 e h
    | store g p r b g2 hr h ih => exact store_player_response_preserves ih h
    | process_ok g g2 hr h ih => exact (process_event_preserves ih).1 h
    | process_err g e g2 hr h ih => exact (process_event_preserves ih).2 e h
  · intro p l c v
    rfl

/-- A freshly created Scenario-A game (identity shuffles). -/
def gInit : Game :=
  (Game.for_2_players id id (1, 2) GameSettings.default).getD gExcl

/-- Witness for `reachable_card_revealed_already_revealed` at a concrete
reachable state. -/
theorem reachable_card_revealed_witness :
    gInit.revealed_events_ok ∧
    (BoardChange.CardRevealed 1 .Attacker (Card.new 0 .Black)).view 2 =
      .CardRevealed 1 .Attacker (Card.new 0 .Black) :=
  ⟨reachable_card_revealed_already_revealed.1 gInit
      (Reachable.init id id (1, 2) GameSettings.default gInit rfl),
   reachable_card_revealed_already_revealed.2 1 .Attacker (Card.new 0 .Black) 2⟩
